import Mathlib

/-!
# geotrigger-go: the client façade (`client.go`)

A shallow embedding of `client.go`.  Go's runtime state that the file touches
(the channels it makes, the structs it allocates, the goroutines it starts) is
an explicit `World` that every function takes and returns.  A run-time panic
(nil dereference, method call on a nil interface) is the result `none`.

The session code that `client.go` starts (`requestAccess`, `tokenManager`,
`geotriggerAPIRequest`, `getSessionInfo`) is in other files of the package; it
is modelled after the specification, twice: as the trace of one goroutine run
on its own (`Task.trace`, `World.run`), and as a system of request goroutines
and the token manager of their session under a schedule (`System`).
-/

namespace Geotrigger

/-! ## Go runtime values -/

/-- A Go reference value (a pointer, a channel, an interface holding a pointer):
either `nil` or an address. -/
inductive Ref where
  | nil
  | addr (a : Nat)
  deriving DecidableEq, Repr

/-- A dynamically typed Go value, as carried by `interface{}`. -/
inductive Value where
  | null
  | bool (b : Bool)
  | num (n : Int)
  | str (s : String)
  | list (xs : List Value)
  | map (kv : List (String × Value))
  | ptr (r : Ref)

/-- Go's `map[string]interface{}`. -/
abbrev Params := List (String × Value)

/-- Go's `map[string]string`, as an association list. -/
abbrev StringMap := List (String × String)

/-- Whether the map has an entry under the key. -/
def StringMap.hasKey (m : StringMap) (k : String) : Bool :=
  m.any (fun kv => kv.1 == k)

/-- Element type of the channels `client.go` makes. -/
inductive ElemType where
  | error
  | refreshStatusCheck
  deriving DecidableEq, Repr

/-- A value travelling on a channel: an `error` (Go's nil error is `none`) or a
`*refreshStatusCheck`. -/
inductive Msg where
  | err (e : Option String)
  | check (r : Ref)
  deriving DecidableEq, Repr

/-- A channel: `make(chan T, cap)` with the values currently buffered. -/
structure Chan where
  elemType : ElemType
  cap : Nat
  queue : List Msg
  deriving DecidableEq, Repr

/-- Go's rule for a send: it can proceed when a receiver is ready or when the
buffer has room. -/
def Chan.sendReady (c : Chan) (receiverReady : Bool) : Bool :=
  receiverReady || decide (c.queue.length < c.cap)

/-- Go's rule applied to the successive sends of one goroutine on a channel,
with a receiver that is ready for every value or for none: a value passes to
the receiver when one is ready, goes into the buffer when there is room, and
otherwise the goroutine blocks at that send for good.  The result is the values
that were sent. -/
def Chan.deliver (k : Chan) (receiverReady : Bool) : List (Option String) → List (Option String)
  | [] => []
  | v :: rest =>
      if k.sendReady receiverReady then
        v :: Chan.deliver
          (if receiverReady then k else { k with queue := k.queue ++ [Msg.err v] })
          receiverReady rest
      else
        []

/-! ## The structs of the package -/

/-- Modelled from the spec: the declaration of struct `device` is outside
`client.go`.  `clientId` and `refreshStatusChecks` are the fields the composite
literal in `NewDeviceClient` sets; the token fields are the device Token Set of
the data model (access token, refresh token, device id) and start at Go's zero
value, the empty string. -/
structure device where
  clientId : String
  refreshStatusChecks : Ref
  deviceId : String := ""
  accessToken : String := ""
  refreshToken : String := ""
  deriving DecidableEq, Repr

/-- Modelled from the spec: the declaration of struct `application` is outside
`client.go`.  `clientId` and `clientSecret` are the fields the composite literal
in `NewApplicationClient` sets; the access token is the application Token Set of
the data model and starts at the empty string. -/
structure application where
  clientId : String
  clientSecret : String
  accessToken : String := ""
  deriving DecidableEq, Repr

/-- The struct `Client`: one field, the session (an interface value). -/
structure Client where
  session : Ref
  deriving DecidableEq, Repr

/-- A heap object. -/
inductive Obj where
  | device (d : device)
  | application (a : application)
  | client (c : Client)
  deriving DecidableEq, Repr

/-- A goroutine started by a `go` statement of `client.go`: the method and the
arguments, evaluated at the `go` statement. -/
inductive Task where
  | geotriggerAPIRequest (session : Ref) (route : String) (params : Params)
      (responseJSON : Value) (errorChan : Ref)
  | requestAccess (session : Ref) (errorChan : Ref)
  | tokenManager (session : Ref)

/-! ## The token manager and the remote service, after the specification -/

/-- Modelled from the spec: the Token Set of the data model (access token,
refresh token, device id); the code that stores it is outside `client.go`. -/
structure TokenSet where
  accessToken : String
  refreshToken : String
  deviceId : String
  deriving DecidableEq, Repr

/-- Modelled from the spec: the outcome of a credential exchange or of a
refresh, "new token set, or error". -/
inductive Outcome where
  | tokens (ts : TokenSet)
  | failed (msg : String)
  deriving DecidableEq, Repr

/-- Modelled from the spec: what the remote service answers to a routed request
(the error taxonomy of the error handling design): a payload, an auth failure
(expired or invalid token), a transport error, a malformed response. -/
inductive Response where
  | ok (payload : Value)
  | authFailure (msg : String)
  | transportError (msg : String)
  | malformed (msg : String)

/-- Whether the answer is an auth failure. -/
def Response.isAuthFailure : Response → Bool
  | Response.authFailure _ => true
  | _ => false

/-- Modelled from the spec: the state of the Token Manager, Idle or Refreshing
with the requesters enqueued behind the refresh in flight. -/
inductive ManagerState where
  | idle
  | refreshing (waiting : List Nat)
  deriving DecidableEq, Repr

/-- Modelled from the spec: what reaches the Token Manager, a refresh request
of a requester or the completion of the refresh in flight. -/
inductive ManagerInput where
  | refreshRequested (requester : Nat)
  | refreshCompleted (outcome : Outcome)
  deriving DecidableEq, Repr

/-- Modelled from the spec: what the Token Manager does, a network call to
`session.refresh()`, an update of the Token Store, the delivery of an outcome to
one requester. -/
inductive ManagerAction where
  | callRefresh
  | store (ts : TokenSet)
  | deliver (requester : Nat) (outcome : Outcome)
  deriving DecidableEq, Repr

/-- Modelled from the spec: one transition of the Token Manager state machine.
Idle and a request: Refreshing, one call to refresh.  Refreshing and a request:
the requester is enqueued, no new call.  Refreshing and completion: Idle, the
Token Store is updated (on success) and then the outcome is delivered to every
enqueued requester once. -/
def tokenManagerStep : ManagerState → ManagerInput → ManagerState × List ManagerAction
  | ManagerState.idle, ManagerInput.refreshRequested r =>
      (ManagerState.refreshing [r], [ManagerAction.callRefresh])
  | ManagerState.refreshing q, ManagerInput.refreshRequested r =>
      (ManagerState.refreshing (q ++ [r]), [])
  | ManagerState.refreshing q, ManagerInput.refreshCompleted o =>
      (ManagerState.idle,
        (match o with
          | Outcome.tokens ts => [ManagerAction.store ts]
          | Outcome.failed _ => []) ++ q.map (fun r => ManagerAction.deliver r o))
  | ManagerState.idle, ManagerInput.refreshCompleted _ => (ManagerState.idle, [])

/-- Modelled from the spec: the Token Manager loop over the inputs that reach
it, in order; the actions are collected in order. -/
def tokenManagerRun : ManagerState → List ManagerInput → ManagerState × List ManagerAction
  | s, [] => (s, [])
  | s, i :: rest =>
      let (s1, acts) := tokenManagerStep s i
      let (s2, more) := tokenManagerRun s1 rest
      (s2, acts ++ more)

/-- What a running goroutine can be observed to do. -/
inductive Event where
  /-- A value sent on an error channel (`none` is Go's nil). -/
  | send (ch : Ref) (e : Option String)
  /-- A routed API call carrying an access token. -/
  | post (route : String) (params : Params) (accessToken : String)
  /-- The initial credential exchange of a session. -/
  | access (session : Ref)
  /-- A refresh request handed to the token manager. -/
  | refreshRequested (session : Ref)
  /-- A response payload decoded into the response target. -/
  | decoded (target : Value) (payload : Value)
  /-- An action of the token manager of a session. -/
  | manager (session : Ref) (a : ManagerAction)

/-- Number of network refresh calls the token managers made, in a log. -/
def refreshCalls (evs : List Event) : Nat :=
  evs.countP (fun e =>
    match e with
    | Event.manager _ ManagerAction.callRefresh => true
    | _ => false)

/-- The outcomes the token managers delivered, in a log, in order: requester
and outcome. -/
def deliveries (evs : List Event) : List (Nat × Outcome) :=
  evs.filterMap (fun e =>
    match e with
    | Event.manager _ (ManagerAction.deliver r o) => some (r, o)
    | _ => none)

/-! ## The runtime state -/

/-- The runtime state: channels and heap objects by address, the goroutines
started so far (oldest first) and the events that have happened. -/
structure World where
  chans : List Chan
  heap : List Obj
  tasks : List Task
  log : List Event

/-- The state of a program that has not done anything yet. -/
def World.empty : World := ⟨[], [], [], []⟩

/-- Go's `make(chan T, cap)`: a fresh channel with an empty buffer. -/
def World.makeChan (w : World) (t : ElemType) (cap : Nat) : Ref × World :=
  (Ref.addr w.chans.length, { w with chans := w.chans ++ [⟨t, cap, []⟩] })

/-- Go's `&T{...}`: a fresh heap object. -/
def World.alloc (w : World) (o : Obj) : Ref × World :=
  (Ref.addr w.heap.length, { w with heap := w.heap ++ [o] })

/-- Go's `go f(args)`: the goroutine is started, the caller goes on. -/
def World.go (w : World) (t : Task) : World :=
  { w with tasks := w.tasks ++ [t] }

/-- The object a reference points to. -/
def World.objAt (w : World) : Ref → Option Obj
  | Ref.nil => none
  | Ref.addr a => w.heap[a]?

/-- The channel a reference points to. -/
def World.chanAt (w : World) : Ref → Option Chan
  | Ref.nil => none
  | Ref.addr a => w.chans[a]?

/-- Dereference of a `*Client`. -/
def World.clientAt (w : World) (r : Ref) : Option Client :=
  match w.objAt r with
  | some (Obj.client c) => some c
  | _ => none

/-- Whether an interface value of type `session` holds an implementation
(a `*device` or an `*application`), so that its methods can be called. -/
def World.isSession (w : World) (r : Ref) : Bool :=
  match w.objAt r with
  | some (Obj.device _) => true
  | some (Obj.application _) => true
  | _ => false

/-- The session method `getSessionInfo`, whose implementations are outside
`client.go`: it is given the receiver and may read and change the world. -/
abbrev GetSessionInfoImpl := Ref → World → Option (StringMap × World)

/-! ## `client.go` -/

/-- The helper `getTokens`: make the error channel, allocate the client, start
`requestAccess` and `tokenManager` on the session, return client and channel. -/
def getTokens (session : Ref) (w : World) : Option ((Ref × Ref) × World) :=
  let (errorChan, w1) := w.makeChan ElemType.error 0
  let (client, w2) := w1.alloc (Obj.client { session := session })
  if w2.isSession session then
    let w3 := w2.go (Task.requestAccess session errorChan)
    let w4 := w3.go (Task.tokenManager session)
    some ((client, errorChan), w4)
  else
    none

/-- The constructor `NewDeviceClient`. -/
def NewDeviceClient (clientId : String) (w : World) : Option ((Ref × Ref) × World) :=
  let (refreshStatusChecks, w1) := w.makeChan ElemType.refreshStatusCheck 0
  let (device, w2) := w1.alloc
    (Obj.device { clientId := clientId, refreshStatusChecks := refreshStatusChecks })
  getTokens device w2

/-- The constructor `NewApplicationClient`. -/
def NewApplicationClient (clientId : String) (clientSecret : String) (w : World) :
    Option ((Ref × Ref) × World) :=
  let (application, w1) := w.alloc
    (Obj.application { clientId := clientId, clientSecret := clientSecret })
  getTokens application w1

/-- The method `Client.Request`. -/
def Client.Request (client : Ref) (route : String) (params : Params) (responseJSON : Value)
    (w : World) : Option (Ref × World) :=
  let (errorChan, w1) := w.makeChan ElemType.error 0
  match w1.clientAt client with
  | none => none
  | some c =>
    if w1.isSession c.session then
      some (errorChan,
        w1.go (Task.geotriggerAPIRequest c.session route params responseJSON errorChan))
    else
      none

/-- The method `Client.GetSessionInfo`. -/
def Client.GetSessionInfo (getSessionInfo : GetSessionInfoImpl) (client : Ref) (w : World) :
    Option (StringMap × World) :=
  match w.clientAt client with
  | none => none
  | some c =>
    if w.isSession c.session then
      getSessionInfo c.session w
    else
      none

/-! ## The session methods outside `client.go`, after the specification -/

/-- The values sent on a channel, in order. -/
def sendsOn (ch : Ref) (evs : List Event) : List (Option String) :=
  evs.filterMap (fun e =>
    match e with
    | Event.send c v => if c = ch then some v else none
    | _ => none)

/-- Number of times a routed request went out to the service. -/
def posts (evs : List Event) : Nat :=
  evs.countP (fun e =>
    match e with
    | Event.post _ _ _ => true
    | _ => false)

/-- Modelled from the spec: the environment of a session, which is what the
remote service answers (to the initial credential exchange, and to each attempt
of a routed request, by attempt number), the outcome the token manager
broadcasts to a requester waiting for a refresh (`none` when no outcome ever
arrives: the design has no timeout, the requester stays blocked), the inputs
that reach the token manager, and whether the caller receives from a channel it
was returned. -/
structure Env where
  access : Outcome
  api : Nat → Response
  refresh : Option Outcome
  managerInputs : List ManagerInput
  receiving : Ref → Bool

/-- Modelled from the spec: `session.requestAccess(errorChan)` is outside
`client.go`.  It performs the initial credential exchange and reports on the
error channel: nil when the token set was acquired, the error otherwise.  The
send is the last thing the goroutine does. -/
def requestAccess (env : Env) (session : Ref) (errorChan : Ref) : List Event :=
  Event.access session ::
    match env.access with
    | Outcome.tokens _ => [Event.send errorChan none]
    | Outcome.failed msg => [Event.send errorChan (some msg)]

/-- Modelled from the spec: the end of one attempt of a routed request that is
not an auth failure at the first attempt: success decodes the payload into the
response target and signals nil; every failure is surfaced as it is. -/
def finishAttempt (responseJSON : Value) (errorChan : Ref) : Response → List Event
  | Response.ok payload => [Event.decoded responseJSON payload, Event.send errorChan none]
  | Response.authFailure msg => [Event.send errorChan (some msg)]
  | Response.transportError msg => [Event.send errorChan (some msg)]
  | Response.malformed msg => [Event.send errorChan (some msg)]

/-- Modelled from the spec: `session.geotriggerAPIRequest` is outside
`client.go`.  Build the request with the current access token and send it; on
success decode and signal nil; on an auth failure signal a refresh request to
the token manager, await the outcome (for ever, when none arrives), and retry
the original request exactly once with the new token; a second auth failure is
fatal for the request, as is every other failure.  The send on the error channel
is the last thing the goroutine does. -/
def geotriggerAPIRequest (env : Env) (accessToken : String) (session : Ref) (route : String)
    (params : Params) (responseJSON : Value) (errorChan : Ref) : List Event :=
  Event.post route params accessToken ::
    match env.api 0 with
    | Response.authFailure _ =>
        Event.refreshRequested session ::
          match env.refresh with
          | none => []
          | some (Outcome.failed msg) => [Event.send errorChan (some msg)]
          | some (Outcome.tokens ts) =>
              Event.post route params ts.accessToken ::
                finishAttempt responseJSON errorChan (env.api 1)
    | r => finishAttempt responseJSON errorChan r

/-- Modelled from the spec: `getSessionInfo` of the two session variants is
outside `client.go`; the keys are the ones the documentation of
`Client.GetSessionInfo` lists for each variant, the values the fields of the
session.  A synchronous accessor: the world is returned as it was. -/
def getSessionInfo : GetSessionInfoImpl := fun session w =>
  match w.objAt session with
  | some (Obj.device d) =>
      some ([("access_token", d.accessToken), ("refresh_token", d.refreshToken),
        ("device_id", d.deviceId), ("client_id", d.clientId)], w)
  | some (Obj.application a) =>
      some ([("access_token", a.accessToken), ("client_id", a.clientId),
        ("client_secret", a.clientSecret)], w)
  | _ => none

/-- The access token a session currently holds. -/
def World.accessTokenOf (w : World) (session : Ref) : String :=
  match w.objAt session with
  | some (Obj.device d) => d.accessToken
  | some (Obj.application a) => a.accessToken
  | _ => ""

/-- Modelled from the spec: what a started goroutine does when it runs, by the
method it was started on. -/
def Task.trace (env : Env) (w : World) : Task → List Event
  | Task.geotriggerAPIRequest session route params responseJSON errorChan =>
      Geotrigger.geotriggerAPIRequest env (w.accessTokenOf session) session route params
        responseJSON errorChan
  | Task.requestAccess session errorChan => Geotrigger.requestAccess env session errorChan
  | Task.tokenManager session =>
      (tokenManagerRun ManagerState.idle env.managerInputs).2.map (Event.manager session)

/-- The world with more events in its log. -/
def World.logged (w : World) (evs : List Event) : World :=
  { w with log := w.log ++ evs }

/-- Modelled from the spec: the Token Set of a session is replaced wholesale
(a device holds access token, refresh token and device id, an application the
access token). -/
def World.storeTokens (w : World) (session : Ref) (ts : TokenSet) : World :=
  match session with
  | Ref.nil => w
  | Ref.addr a =>
      match w.heap[a]? with
      | some (Obj.device d) =>
          { w with heap := w.heap.set a (Obj.device { d with
              accessToken := ts.accessToken, refreshToken := ts.refreshToken,
              deviceId := ts.deviceId }) }
      | some (Obj.application ap) =>
          { w with heap := w.heap.set a (Obj.application { ap with
              accessToken := ts.accessToken }) }
      | _ => w

/-- Modelled from the spec: the effect of the token manager's actions on the
Token Store of its session: each `store` replaces the Token Set. -/
def World.storeAll (w : World) (session : Ref) (acts : List ManagerAction) : World :=
  acts.foldl (fun v a =>
    match a with
    | ManagerAction.store ts => v.storeTokens session ts
    | _ => v) w

/-- Modelled from the spec: what running a goroutine does to the Token Store.
A successful `requestAccess` stores the token set it acquired, the token manager
stores what its refreshes brought, a routed request stores nothing. -/
def Task.stored (env : Env) (w : World) : Task → World
  | Task.geotriggerAPIRequest _ _ _ _ _ => w
  | Task.requestAccess session _ =>
      match env.access with
      | Outcome.tokens ts => w.storeTokens session ts
      | Outcome.failed _ => w
  | Task.tokenManager session =>
      w.storeAll session (tokenManagerRun ManagerState.idle env.managerInputs).2

/-- Run one goroutine as far as it gets: the Token Store is updated and what the
goroutine does is appended to the log.  A send in the log is the goroutine
executing its send statement; which sends go through is `World.valuesSent`. -/
def World.run (env : Env) (w : World) (t : Task) : World :=
  (t.stored env w).logged (t.trace env w)

/-- The values that are sent on a channel when goroutines do what `evs` lists,
by Go's rule for sends on the channel as it is in the world. -/
def World.valuesSent (w : World) (receiverReady : Bool) (ch : Ref) (evs : List Event) :
    List (Option String) :=
  match w.chanAt ch with
  | some k => k.deliver receiverReady (sendsOn ch evs)
  | none => []

/-- Run goroutines one after the other. -/
def World.runAll (env : Env) (w : World) (ts : List Task) : World :=
  ts.foldl (World.run env) w

/-- The goroutines that a call started: those of the world after the call that
were not in the world before. -/
def World.startedSince (after before : World) : List Task :=
  after.tasks.drop before.tasks.length

/-- The channels that a call made: those of the world after the call that were
not in the world before. -/
def World.chansSince (after before : World) : List Chan :=
  after.chans.drop before.chans.length

/-- Whether the goroutine is a token manager of the session. -/
def Task.isTokenManagerOf (session : Ref) : Task → Bool
  | Task.tokenManager s => s == session
  | _ => false

/-- Number of token managers running on a session. -/
def World.tokenManagersOf (w : World) (session : Ref) : Nat :=
  w.tasks.countP (Task.isTokenManagerOf session)

/-- The session a goroutine runs on. -/
def Task.session : Task → Ref
  | Task.geotriggerAPIRequest s _ _ _ _ => s
  | Task.requestAccess s _ => s
  | Task.tokenManager s => s

/-- Every goroutine of the world runs on a session that exists in its heap. -/
def World.tasksOnSessions (w : World) : Bool :=
  w.tasks.all (fun t => w.isSession t.session)

/-! ## Concurrent requests on one session, after the specification -/

/-- Modelled from the spec: where a `geotriggerAPIRequest` goroutine stands.
About to send the request with the current token; waiting for the outcome of the
refresh it asked for; about to retry with the new token set; about to send a
value on its error channel; ended. -/
inductive Stage where
  | start
  | waiting
  | retry (ts : TokenSet)
  | signal (v : Option String)
  | done
  deriving DecidableEq, Repr

/-- Modelled from the spec: a requester resumes with the outcome it is given,
to retry with the new token set or to report the error of the refresh. -/
def Stage.resumed : Outcome → Stage
  | Outcome.tokens ts => Stage.retry ts
  | Outcome.failed msg => Stage.signal (some msg)

/-- Modelled from the spec: the value a request reports for a final answer,
nil for a payload and the error otherwise. -/
def Response.verdict : Response → Option String
  | Response.ok _ => none
  | Response.authFailure msg => some msg
  | Response.transportError msg => some msg
  | Response.malformed msg => some msg

/-- Modelled from the spec: a payload is decoded into the response target. -/
def decoding (responseJSON : Value) : Response → List Event
  | Response.ok payload => [Event.decoded responseJSON payload]
  | _ => []

/-- The world with one more value in the buffer of a channel. -/
def World.buffered (w : World) (ch : Ref) (v : Option String) : World :=
  match ch with
  | Ref.nil => w
  | Ref.addr a =>
      match w.chans[a]? with
      | some k => { w with chans := w.chans.set a { k with queue := k.queue ++ [Msg.err v] } }
      | none => w

/-- What happens next in a session whose goroutines run concurrently: goroutine
`i` takes its next step, or the network refresh in flight returns with an
outcome. -/
inductive Action where
  | run (i : Nat)
  | refreshDone (o : Outcome)
  deriving DecidableEq, Repr

/-- Whether the action is a step of a goroutine. -/
def Action.isRun : Action → Bool
  | Action.run _ => true
  | Action.refreshDone _ => false

/-- Modelled from the spec: the surroundings of concurrent requests, which is
what the remote service answers to goroutine `i` at its attempt `k`, and whether
the caller receives from a channel it was returned. -/
structure Service where
  answer : Nat → Nat → Response
  receiving : Ref → Bool

/-- Modelled from the spec: one session at work.  The world (Token Store,
channels, log), the session, the state of the token manager of the session (the
single coordinating process `getTokens` starts), the request goroutines by
number and the stage of each. -/
structure System where
  world : World
  session : Ref
  manager : ManagerState
  requests : List Task
  stage : Nat → Stage

/-- The system when the request goroutines have been started and none has run:
the token manager is idle. -/
def System.start (w : World) (session : Ref) (requests : List Task) : System :=
  { world := w, session := session, manager := ManagerState.idle, requests := requests,
    stage := fun _ => Stage.start }

/-- Modelled from the spec: the next step of request goroutine `i`, the body of
`geotriggerAPIRequest` cut at the points where it waits.  At the start it sends
the request with the current token; an auth failure makes it hand a refresh
request to the token manager (which takes it at once, a rendezvous) and wait;
any other answer is final.  Resumed with a token set it retries once and the
answer is final.  With a final value it sends on its error channel, if the
channel lets the send proceed.  Waiting or ended, it does nothing. -/
def System.run (svc : Service) (s : System) (i : Nat) : System :=
  match s.requests[i]? with
  | some (Task.geotriggerAPIRequest session route params responseJSON errorChan) =>
      match s.stage i with
      | Stage.start =>
          match svc.answer i 0 with
          | Response.authFailure _ =>
              { s with
                world := s.world.logged
                  (Event.post route params (s.world.accessTokenOf session) ::
                    Event.refreshRequested session ::
                    (tokenManagerStep s.manager (ManagerInput.refreshRequested i)).2.map
                      (Event.manager session)),
                manager := (tokenManagerStep s.manager (ManagerInput.refreshRequested i)).1,
                stage := Function.update s.stage i Stage.waiting }
          | r =>
              { s with
                world := s.world.logged
                  (Event.post route params (s.world.accessTokenOf session) ::
                    decoding responseJSON r),
                stage := Function.update s.stage i (Stage.signal r.verdict) }
      | Stage.retry ts =>
          { s with
            world := s.world.logged
              (Event.post route params ts.accessToken ::
                decoding responseJSON (svc.answer i 1)),
            stage := Function.update s.stage i (Stage.signal (svc.answer i 1).verdict) }
      | Stage.signal v =>
          match s.world.chanAt errorChan with
          | some k =>
              if k.sendReady (svc.receiving errorChan) then
                { s with
                  world := (if svc.receiving errorChan then s.world
                    else s.world.buffered errorChan v).logged [Event.send errorChan v],
                  stage := Function.update s.stage i Stage.done }
              else
                s
          | none => s
      | Stage.waiting => s
      | Stage.done => s
  | _ => s

/-- Modelled from the spec: the network refresh in flight returns.  The token
manager takes the completion: the Token Store is updated, the outcome is
delivered to the requesters it names, and each of them resumes. -/
def System.refreshDone (s : System) (o : Outcome) : System :=
  { s with
    world := (s.world.storeAll s.session
        (tokenManagerStep s.manager (ManagerInput.refreshCompleted o)).2).logged
      ((tokenManagerStep s.manager (ManagerInput.refreshCompleted o)).2.map
        (Event.manager s.session)),
    manager := (tokenManagerStep s.manager (ManagerInput.refreshCompleted o)).1,
    stage := fun j =>
      if ManagerAction.deliver j o ∈
          (tokenManagerStep s.manager (ManagerInput.refreshCompleted o)).2 then
        Stage.resumed o
      else
        s.stage j }

/-- One action of a schedule. -/
def System.step (svc : Service) (s : System) : Action → System
  | Action.run i => s.run svc i
  | Action.refreshDone o => s.refreshDone o

/-- A schedule, action after action. -/
def System.exec (svc : Service) (s : System) (sched : List Action) : System :=
  sched.foldl (System.step svc) s

/-- The schedules in which the requests numbered below `n` meet the expired
token simultaneously: each of them has taken a step before the first time a
refresh returns. -/
def simultaneous (n : Nat) (sched : List Action) : Bool :=
  (List.range n).all (fun i => decide (Action.run i ∈ sched.takeWhile Action.isRun))

/-- Whether the goroutine is a routed request. -/
def Task.isRequest : Task → Bool
  | Task.geotriggerAPIRequest _ _ _ _ _ => true
  | _ => false

/-- A caller issuing requests one after the other on one client: `Client.Request`
for each route, params and responseJSON in turn; the returned channels are
collected. -/
def requestAll (client : Ref) : List (String × Params × Value) → World → Option (List Ref × World)
  | [], w => some ([], w)
  | (route, params, responseJSON) :: rest, w =>
      match Client.Request client route params responseJSON w with
      | none => none
      | some (errorChan, w1) =>
          match requestAll client rest w1 with
          | none => none
          | some (chans, w2) => some (errorChan :: chans, w2)

/-- The requesters enqueued at the token manager. -/
def ManagerState.waiting : ManagerState → List Nat
  | ManagerState.idle => []
  | ManagerState.refreshing q => q

/-- The phase in which the requests meet the expired token, before a refresh
has returned: every goroutine is at its start or waiting, the waiting ones are
exactly the requesters enqueued at the token manager, each once, and the log
has one refresh call more than `c0` when the manager is refreshing, and the
deliveries `d0`. -/
def System.Detecting (s : System) (c0 : Nat) (d0 : List (Nat × Outcome)) : Prop :=
  (∀ i, s.stage i = Stage.start ∨ s.stage i = Stage.waiting) ∧
    (∀ i, s.stage i = Stage.waiting → i < s.requests.length) ∧
    s.manager.waiting.Nodup ∧
    (∀ i, i ∈ s.manager.waiting ↔ s.stage i = Stage.waiting) ∧
    refreshCalls s.world.log = c0 + (if s.manager = ManagerState.idle then 0 else 1) ∧
    deliveries s.world.log = d0

/-- The phase after the refresh has returned: the token manager is idle and no
request is at its start any more. -/
def System.Settled (s : System) : Prop :=
  s.manager = ManagerState.idle ∧ ∀ i, i < s.requests.length → s.stage i ≠ Stage.start

/-- Whether the event is an action of a token manager. -/
def Event.isManager : Event → Bool
  | Event.manager _ _ => true
  | _ => false

/-- Three requests a caller issues on one client. -/
def sampleCalls : List (String × Params × Value) :=
  [("trigger/list", [], Value.null), ("trigger/run", [], Value.null),
    ("device/list", [], Value.null)]

/-- A schedule of three requests in which all three meet the expired token
before the refresh returns with a new token set; after that they retry and
report, and a second completion arrives that finds no refresh in flight. -/
def sampleSchedule : List Action :=
  [Action.run 2, Action.run 0, Action.run 0, Action.run 1,
    Action.refreshDone (Outcome.tokens ⟨"t2", "r2", "d1"⟩), Action.run 1, Action.run 1,
    Action.refreshDone (Outcome.failed "late"), Action.run 0, Action.run 2]

/-- A schedule of three requests in which the third meets the expired token only
after the refresh has returned. -/
def lateSchedule : List Action :=
  [Action.run 0, Action.run 1, Action.refreshDone (Outcome.tokens ⟨"t2", "r2", "d1"⟩),
    Action.run 2]

/-- A service that rejects the access token at the first attempt of every
request and answers every retry; the caller receives from every channel. -/
def Service.expired : Service :=
  { answer := fun _ k =>
      match k with
      | 0 => Response.authFailure "token expired"
      | _ => Response.ok Value.null,
    receiving := fun _ => true }

/-- The world in which one application client has been built and nothing else
has happened: its session at address 0, the client at address 1, the error
channel at address 0. -/
def World.sample : World :=
  { chans := [⟨ElemType.error, 0, []⟩],
    heap := [Obj.application { clientId := "abc", clientSecret := "xyz" },
      Obj.client ⟨Ref.addr 0⟩],
    tasks := [Task.requestAccess (Ref.addr 0) (Ref.addr 0), Task.tokenManager (Ref.addr 0)],
    log := [] }

/-- The world in which one device client has been built and nothing else has
happened: `refreshStatusChecks` at channel address 0, the error channel at 1,
the session at address 0, the client at address 1. -/
def World.sampleDevice : World :=
  { chans := [⟨ElemType.refreshStatusCheck, 0, []⟩, ⟨ElemType.error, 0, []⟩],
    heap := [Obj.device { clientId := "abc", refreshStatusChecks := Ref.addr 0 },
      Obj.client ⟨Ref.addr 0⟩],
    tasks := [Task.requestAccess (Ref.addr 0) (Ref.addr 1), Task.tokenManager (Ref.addr 0)],
    log := [] }

/-- An environment in which the service rejects the access token at every
attempt of a routed request, also after a refresh that succeeded; two requesters
reach the token manager before the refresh completes; the caller receives from
every channel. -/
def Env.rejecting : Env :=
  { access := Outcome.tokens ⟨"t1", "r1", "d1"⟩,
    api := fun _ => Response.authFailure "invalid token",
    refresh := some (Outcome.tokens ⟨"t2", "r2", "d1"⟩),
    managerInputs := [ManagerInput.refreshRequested 0, ManagerInput.refreshRequested 1,
      ManagerInput.refreshCompleted (Outcome.tokens ⟨"t2", "r2", "d1"⟩)],
    receiving := fun _ => true }

/-- An environment in which the service rejects the access token of a routed
request and the refresh the request then waits for never has an outcome (the
network does not answer); the caller receives from every channel. -/
def Env.stalled : Env :=
  { access := Outcome.tokens ⟨"t1", "r1", "d1"⟩,
    api := fun _ => Response.authFailure "token expired",
    refresh := none,
    managerInputs := [ManagerInput.refreshRequested 0],
    receiving := fun _ => true }

/-- An environment in which the service registers the device (access token
"t1", device id "d1") and answers every routed request, and the caller never
receives from a channel it was returned. -/
def Env.unread : Env :=
  { access := Outcome.tokens ⟨"t1", "r1", "d1"⟩,
    api := fun _ => Response.ok Value.null,
    refresh := none,
    managerInputs := [],
    receiving := fun _ => false }

/-! ## Basic facts about the runtime state -/

theorem World.isSession_of_heap_append (w : World) (r : Ref) (extra : List Obj) (cs : List Chan)
    (ts : List Task) (lg : List Event) (h : w.isSession r = true) :
    World.isSession ⟨cs, w.heap ++ extra, ts, lg⟩ r = true := by
  cases r with
  | nil => simp [World.isSession, World.objAt] at h
  | addr a =>
    simp only [World.isSession, World.objAt] at h ⊢
    by_cases ha : a < w.heap.length
    · rw [List.getElem?_append_left ha]
      exact h
    · rw [List.getElem?_eq_none (Nat.le_of_not_lt ha)] at h
      simp at h

theorem World.isSession_lt (w : World) (a : Nat) (h : w.isSession (Ref.addr a) = true) :
    a < w.heap.length := by
  by_contra ha
  simp only [World.isSession, World.objAt] at h
  rw [List.getElem?_eq_none (Nat.le_of_not_lt ha)] at h
  simp at h

theorem getTokens_eq (session : Ref) (w : World) (hs : w.isSession session = true) :
    getTokens session w = some ((Ref.addr w.heap.length, Ref.addr w.chans.length),
      { chans := w.chans ++ [⟨ElemType.error, 0, []⟩],
        heap := w.heap ++ [Obj.client ⟨session⟩],
        tasks := w.tasks ++
          [Task.requestAccess session (Ref.addr w.chans.length), Task.tokenManager session],
        log := w.log }) := by
  have h2 := World.isSession_of_heap_append w session [Obj.client ⟨session⟩]
    (w.chans ++ [⟨ElemType.error, 0, []⟩]) w.tasks w.log hs
  simp [getTokens, World.makeChan, World.alloc, World.go, h2]

theorem NewDeviceClient_eq (clientId : String) (w : World) :
    NewDeviceClient clientId w =
      some ((Ref.addr (w.heap.length + 1), Ref.addr (w.chans.length + 1)),
        { chans := w.chans ++ [⟨ElemType.refreshStatusCheck, 0, []⟩, ⟨ElemType.error, 0, []⟩],
          heap := w.heap ++
            [Obj.device { clientId := clientId, refreshStatusChecks := Ref.addr w.chans.length },
              Obj.client ⟨Ref.addr w.heap.length⟩],
          tasks := w.tasks ++
            [Task.requestAccess (Ref.addr w.heap.length) (Ref.addr (w.chans.length + 1)),
              Task.tokenManager (Ref.addr w.heap.length)],
          log := w.log }) := by
  unfold NewDeviceClient
  simp only [World.makeChan, World.alloc]
  rw [getTokens_eq]
  · simp
  · simp [World.isSession, World.objAt]

theorem NewApplicationClient_eq (clientId clientSecret : String) (w : World) :
    NewApplicationClient clientId clientSecret w =
      some ((Ref.addr (w.heap.length + 1), Ref.addr w.chans.length),
        { chans := w.chans ++ [⟨ElemType.error, 0, []⟩],
          heap := w.heap ++
            [Obj.application { clientId := clientId, clientSecret := clientSecret },
              Obj.client ⟨Ref.addr w.heap.length⟩],
          tasks := w.tasks ++
            [Task.requestAccess (Ref.addr w.heap.length) (Ref.addr w.chans.length),
              Task.tokenManager (Ref.addr w.heap.length)],
          log := w.log }) := by
  unfold NewApplicationClient
  simp only [World.alloc]
  rw [getTokens_eq]
  · simp
  · simp [World.isSession, World.objAt]

theorem Client.Request_eq (client : Ref) (c : Client) (route : String) (params : Params)
    (responseJSON : Value) (w : World) (hc : w.clientAt client = some c)
    (hs : w.isSession c.session = true) :
    Client.Request client route params responseJSON w =
      some (Ref.addr w.chans.length,
        { chans := w.chans ++ [⟨ElemType.error, 0, []⟩],
          heap := w.heap,
          tasks := w.tasks ++
            [Task.geotriggerAPIRequest c.session route params responseJSON
              (Ref.addr w.chans.length)],
          log := w.log }) := by
  have hc1 : World.clientAt ⟨w.chans ++ [⟨ElemType.error, 0, []⟩], w.heap, w.tasks, w.log⟩ client
      = some c := hc
  have hs1 : World.isSession ⟨w.chans ++ [⟨ElemType.error, 0, []⟩], w.heap, w.tasks, w.log⟩
      c.session = true := hs
  simp [Client.Request, World.makeChan, World.go, hc1, hs1]

theorem getElem?_append_pair_fst {α : Type} (l : List α) (a b : α) :
    (l ++ [a, b])[l.length]? = some a := by
  rw [List.getElem?_append_right (Nat.le_refl _)]
  simp

theorem getElem?_append_pair_snd {α : Type} (l : List α) (a b : α) :
    (l ++ [a, b])[l.length + 1]? = some b := by
  rw [List.getElem?_append_right (Nat.le_add_right _ _)]
  simp

theorem getElem?_append_one {α : Type} (l : List α) (a : α) :
    (l ++ [a])[l.length]? = some a := by
  rw [List.getElem?_append_right (Nat.le_refl _)]
  simp

theorem World.sample_eq :
    NewApplicationClient "abc" "xyz" World.empty =
      some ((Ref.addr 1, Ref.addr 0), World.sample) := by
  rfl

theorem World.tokenManagersOf_fresh (w : World) (hw : w.tasksOnSessions = true) :
    w.tokenManagersOf (Ref.addr w.heap.length) = 0 := by
  unfold World.tokenManagersOf
  rw [List.countP_eq_zero]
  intro t ht
  have hs : w.isSession t.session = true := by
    simp only [World.tasksOnSessions, List.all_eq_true] at hw
    exact hw t ht
  cases t with
  | geotriggerAPIRequest s r p j e => simp [Task.isTokenManagerOf]
  | requestAccess s e => simp [Task.isTokenManagerOf]
  | tokenManager s =>
    simp only [Task.isTokenManagerOf, beq_iff_eq]
    intro h
    simp only [Task.session] at hs
    rw [h] at hs
    exact absurd (World.isSession_lt w _ hs) (Nat.lt_irrefl _)

theorem World.storeTokens_log (w : World) (session : Ref) (ts : TokenSet) :
    (w.storeTokens session ts).log = w.log := by
  unfold World.storeTokens
  split
  · rfl
  · split <;> rfl

theorem World.storeTokens_chans (w : World) (session : Ref) (ts : TokenSet) :
    (w.storeTokens session ts).chans = w.chans := by
  unfold World.storeTokens
  split
  · rfl
  · split <;> rfl

theorem World.storeAll_log (w : World) (session : Ref) (acts : List ManagerAction) :
    (w.storeAll session acts).log = w.log := by
  unfold World.storeAll
  induction acts generalizing w with
  | nil => rfl
  | cons a rest ih =>
    rw [List.foldl_cons, ih]
    cases a <;> simp [World.storeTokens_log]

theorem World.storeAll_chans (w : World) (session : Ref) (acts : List ManagerAction) :
    (w.storeAll session acts).chans = w.chans := by
  unfold World.storeAll
  induction acts generalizing w with
  | nil => rfl
  | cons a rest ih =>
    rw [List.foldl_cons, ih]
    cases a <;> simp [World.storeTokens_chans]

theorem Task.stored_log (env : Env) (w : World) (t : Task) : (t.stored env w).log = w.log := by
  cases t with
  | geotriggerAPIRequest s r p j e => rfl
  | requestAccess s e =>
    simp only [Task.stored]
    split
    · exact World.storeTokens_log w s _
    · rfl
  | tokenManager s => exact World.storeAll_log w s _

theorem World.run_log (env : Env) (w : World) (t : Task) :
    (w.run env t).log = w.log ++ t.trace env w := by
  simp [World.run, World.logged, Task.stored_log]

theorem World.runAll_pair_log (env : Env) (w : World) (session errorChan : Ref) :
    (w.runAll env [Task.requestAccess session errorChan, Task.tokenManager session]).log =
      w.log ++ (Task.trace env w (Task.requestAccess session errorChan) ++
        Task.trace env w (Task.tokenManager session)) := by
  simp only [World.runAll, List.foldl_cons, List.foldl_nil, World.run_log, List.append_assoc]
  rfl

/-! ## The claims settled on `client.go` -/

/-- C1: on a client (a live `*Client` whose session holds an implementation),
`Client.Request` returns a channel and has started exactly one goroutine, a
`geotriggerAPIRequest` on the client's session with the route, params and
responseJSON it was given and with the returned channel as error channel; at the
return nothing of that goroutine has happened (the log is as before), and the
heap is untouched. -/
theorem Request_starts_one_task (client : Ref) (c : Client) (route : String) (params : Params)
    (responseJSON : Value) (w : World) (hc : w.clientAt client = some c)
    (hs : w.isSession c.session = true) :
    ∃ errorChan w', Client.Request client route params responseJSON w = some (errorChan, w') ∧
      w'.tasks = w.tasks ++ w'.startedSince w ∧
      w'.startedSince w =
        [Task.geotriggerAPIRequest c.session route params responseJSON errorChan] ∧
      w'.log = w.log ∧ w'.heap = w.heap := by
  refine ⟨_, _, Client.Request_eq client c route params responseJSON w hc hs, ?_⟩
  simp [World.startedSince]

theorem Request_starts_one_task_witness :
    ∃ errorChan w',
      Client.Request (Ref.addr 1) "trigger/list" [("tags", Value.str "x")] Value.null
        World.sample = some (errorChan, w') ∧
      w'.tasks = World.sample.tasks ++ w'.startedSince World.sample ∧
      w'.startedSince World.sample =
        [Task.geotriggerAPIRequest (Ref.addr 0) "trigger/list" [("tags", Value.str "x")]
          Value.null errorChan] ∧
      w'.log = World.sample.log ∧ w'.heap = World.sample.heap :=
  Request_starts_one_task (Ref.addr 1) ⟨Ref.addr 0⟩ "trigger/list" [("tags", Value.str "x")]
    Value.null World.sample rfl rfl

/-- C4: on a client, `Client.GetSessionInfo` is the call of `getSessionInfo` on
the client's session and nothing more, whatever the implementation of that
method: same result and same world.  So when the method is an accessor that
leaves the world as it is, the world after `GetSessionInfo` has the same
goroutines, the same channels, the same log and the same heap, and the client
still holds the same session. -/
theorem GetSessionInfo_only_delegates (impl : GetSessionInfoImpl) (client : Ref) (c : Client)
    (w : World) (hc : w.clientAt client = some c) (hs : w.isSession c.session = true) :
    Client.GetSessionInfo impl client w = impl c.session w ∧
      ∀ m, impl c.session w = some (m, w) →
        ∃ w', Client.GetSessionInfo impl client w = some (m, w') ∧
          w'.tasks = w.tasks ∧ w'.chans = w.chans ∧ w'.log = w.log ∧ w'.heap = w.heap ∧
          w'.clientAt client = some c := by
  have h : Client.GetSessionInfo impl client w = impl c.session w := by
    simp [Client.GetSessionInfo, hc, hs]
  refine ⟨h, ?_⟩
  intro m hm
  exact ⟨w, h.trans hm, rfl, rfl, rfl, rfl, hc⟩

theorem GetSessionInfo_only_delegates_witness :
    Client.GetSessionInfo getSessionInfo (Ref.addr 1) World.sample =
        getSessionInfo (Ref.addr 0) World.sample ∧
      ∀ m, getSessionInfo (Ref.addr 0) World.sample = some (m, World.sample) →
        ∃ w', Client.GetSessionInfo getSessionInfo (Ref.addr 1) World.sample = some (m, w') ∧
          w'.tasks = World.sample.tasks ∧ w'.chans = World.sample.chans ∧
          w'.log = World.sample.log ∧ w'.heap = World.sample.heap ∧
          w'.clientAt (Ref.addr 1) = some ⟨Ref.addr 0⟩ :=
  GetSessionInfo_only_delegates getSessionInfo (Ref.addr 1) ⟨Ref.addr 0⟩ World.sample rfl rfl

/-- C5: for every clientId and clientSecret and in every world, both
constructors return; the client of `NewDeviceClient` holds a session that is a
device with exactly that clientId, the client of `NewApplicationClient` a
session that is an application with exactly that clientId and clientSecret. -/
theorem constructors_hold_credentials (clientId clientSecret : String) (w : World) :
    (∃ client errorChan w' s rsc,
        NewDeviceClient clientId w = some ((client, errorChan), w') ∧
        w'.clientAt client = some ⟨s⟩ ∧
        w'.objAt s = some (Obj.device { clientId := clientId, refreshStatusChecks := rsc })) ∧
      ∃ client errorChan w' s,
        NewApplicationClient clientId clientSecret w = some ((client, errorChan), w') ∧
        w'.clientAt client = some ⟨s⟩ ∧
        w'.objAt s =
          some (Obj.application { clientId := clientId, clientSecret := clientSecret }) := by
  constructor
  · refine ⟨_, _, _, Ref.addr w.heap.length, Ref.addr w.chans.length,
      NewDeviceClient_eq clientId w, ?_, ?_⟩
    · simp only [World.clientAt, World.objAt, getElem?_append_pair_snd]
    · simp only [World.objAt, getElem?_append_pair_fst]
  · refine ⟨_, _, _, Ref.addr w.heap.length, NewApplicationClient_eq clientId clientSecret w,
      ?_, ?_⟩
    · simp only [World.clientAt, World.objAt, getElem?_append_pair_snd]
    · simp only [World.objAt, getElem?_append_pair_fst]

/-- C8: for every input and in every world, both constructors return, without
a failure path: a client pointer and an error channel that are not nil and are
live.  At the return the session of the client holds no access token, nothing
has happened yet (the log is as before, the error channel is empty), and the
started `requestAccess` holds the returned channel to report on. -/
theorem constructors_return_synchronously (clientId clientSecret : String) (w : World) :
    (∃ c ch s w', NewDeviceClient clientId w = some ((Ref.addr c, Ref.addr ch), w') ∧
        w'.clientAt (Ref.addr c) = some ⟨s⟩ ∧
        w'.chanAt (Ref.addr ch) = some ⟨ElemType.error, 0, []⟩ ∧
        w'.accessTokenOf s = "" ∧ w'.log = w.log ∧
        w'.startedSince w = [Task.requestAccess s (Ref.addr ch), Task.tokenManager s]) ∧
      ∃ c ch s w',
        NewApplicationClient clientId clientSecret w = some ((Ref.addr c, Ref.addr ch), w') ∧
        w'.clientAt (Ref.addr c) = some ⟨s⟩ ∧
        w'.chanAt (Ref.addr ch) = some ⟨ElemType.error, 0, []⟩ ∧
        w'.accessTokenOf s = "" ∧ w'.log = w.log ∧
        w'.startedSince w = [Task.requestAccess s (Ref.addr ch), Task.tokenManager s] := by
  constructor
  · refine ⟨_, _, Ref.addr w.heap.length, _, NewDeviceClient_eq clientId w, ?_, ?_, ?_, rfl, ?_⟩
    · simp only [World.clientAt, World.objAt, getElem?_append_pair_snd]
    · simp only [World.chanAt, getElem?_append_pair_snd]
    · simp only [World.accessTokenOf, World.objAt, getElem?_append_pair_fst]
    · simp [World.startedSince]
  · refine ⟨_, _, Ref.addr w.heap.length, _, NewApplicationClient_eq clientId clientSecret w,
      ?_, ?_, ?_, rfl, ?_⟩
    · simp only [World.clientAt, World.objAt, getElem?_append_pair_snd]
    · simp only [World.chanAt, getElem?_append_one]
    · simp only [World.accessTokenOf, World.objAt, getElem?_append_pair_fst]
    · simp [World.startedSince]

/-- C9: `getTokens`, on a session that holds an implementation, returns and
has started exactly two goroutines, in this order: `requestAccess` on the
session with the returned error channel, then `tokenManager` on the session;
the returned client holds that same session.  Each constructor, in every world,
starts exactly these two goroutines on the session of the client it returns,
which adds one token manager to that session; in a world whose goroutines all
run on existing sessions (the empty world is one) that session has exactly one
token manager. -/
theorem getTokens_starts_two_tasks (session : Ref) (clientId clientSecret : String)
    (w : World) :
    (w.isSession session = true →
      ∃ client errorChan w', getTokens session w = some ((client, errorChan), w') ∧
        w'.tasks = w.tasks ++ w'.startedSince w ∧
        w'.startedSince w =
          [Task.requestAccess session errorChan, Task.tokenManager session] ∧
        w'.clientAt client = some ⟨session⟩) ∧
      (∃ client errorChan w' s, NewDeviceClient clientId w = some ((client, errorChan), w') ∧
        w'.clientAt client = some ⟨s⟩ ∧
        w'.startedSince w = [Task.requestAccess s errorChan, Task.tokenManager s] ∧
        w'.tokenManagersOf s = w.tokenManagersOf s + 1 ∧
        (w.tasksOnSessions = true → w'.tokenManagersOf s = 1)) ∧
      ∃ client errorChan w' s,
        NewApplicationClient clientId clientSecret w = some ((client, errorChan), w') ∧
        w'.clientAt client = some ⟨s⟩ ∧
        w'.startedSince w = [Task.requestAccess s errorChan, Task.tokenManager s] ∧
        w'.tokenManagersOf s = w.tokenManagersOf s + 1 ∧
        (w.tasksOnSessions = true → w'.tokenManagersOf s = 1) := by
  refine ⟨fun hs => ⟨_, _, _, getTokens_eq session w hs, ?_, ?_, ?_⟩,
    ⟨_, _, _, Ref.addr w.heap.length, NewDeviceClient_eq clientId w, ?_, ?_, ?_, ?_⟩,
    ⟨_, _, _, Ref.addr w.heap.length, NewApplicationClient_eq clientId clientSecret w,
      ?_, ?_, ?_, ?_⟩⟩
  · simp [World.startedSince]
  · simp [World.startedSince]
  · simp only [World.clientAt, World.objAt, getElem?_append_one]
  · simp only [World.clientAt, World.objAt, getElem?_append_pair_snd]
  · simp [World.startedSince]
  · simp [World.tokenManagersOf, List.countP_append, Task.isTokenManagerOf, List.countP_cons]
  · intro hw
    have h0 := World.tokenManagersOf_fresh w hw
    unfold World.tokenManagersOf at h0
    simp [World.tokenManagersOf, List.countP_append, h0, Task.isTokenManagerOf,
      List.countP_cons]
  · simp only [World.clientAt, World.objAt, getElem?_append_pair_snd]
  · simp [World.startedSince]
  · simp [World.tokenManagersOf, List.countP_append, Task.isTokenManagerOf, List.countP_cons]
  · intro hw
    have h0 := World.tokenManagersOf_fresh w hw
    unfold World.tokenManagersOf at h0
    simp [World.tokenManagersOf, List.countP_append, h0, Task.isTokenManagerOf,
      List.countP_cons]

theorem getTokens_starts_two_tasks_witness :
    (∃ client errorChan w', getTokens (Ref.addr 0) World.sample = some ((client, errorChan), w') ∧
        w'.tasks = World.sample.tasks ++ w'.startedSince World.sample ∧
        w'.startedSince World.sample =
          [Task.requestAccess (Ref.addr 0) errorChan, Task.tokenManager (Ref.addr 0)] ∧
        w'.clientAt client = some ⟨Ref.addr 0⟩) ∧
      (∃ client errorChan w' s,
        NewDeviceClient "abc" World.empty = some ((client, errorChan), w') ∧
        w'.clientAt client = some ⟨s⟩ ∧
        w'.startedSince World.empty = [Task.requestAccess s errorChan, Task.tokenManager s] ∧
        w'.tokenManagersOf s = 1) ∧
      ∃ client errorChan w' s,
        NewApplicationClient "abc" "xyz" World.empty = some ((client, errorChan), w') ∧
        w'.clientAt client = some ⟨s⟩ ∧
        w'.startedSince World.empty = [Task.requestAccess s errorChan, Task.tokenManager s] ∧
        w'.tokenManagersOf s = 1 :=
  ⟨(getTokens_starts_two_tasks (Ref.addr 0) "abc" "xyz" World.sample).1 rfl,
    (match (getTokens_starts_two_tasks Ref.nil "abc" "xyz" World.empty).2.1 with
      | ⟨cl, ch, w', s, h1, h2, h3, _, h5⟩ => ⟨cl, ch, w', s, h1, h2, h3, h5 rfl⟩),
    (match (getTokens_starts_two_tasks Ref.nil "abc" "xyz" World.empty).2.2 with
      | ⟨cl, ch, w', s, h1, h2, h3, _, h5⟩ => ⟨cl, ch, w', s, h1, h2, h3, h5 rfl⟩)⟩

/-- C10: every channel made in `client.go` has capacity 0 and an empty buffer.
In every world `NewDeviceClient` makes two channels, of which one is the
`refreshStatusChecks` of the device and the other the returned error channel,
and `NewApplicationClient` makes the returned error channel only; `Request` (on
a client) and `getTokens` (on a session that holds an implementation) make the
one channel they return.  On each returned error channel a send can proceed
exactly when a receiver is ready. -/
theorem channels_unbuffered (client session : Ref) (c : Client) (route : String)
    (params : Params) (responseJSON : Value) (clientId clientSecret : String) (w : World) :
    (w.clientAt client = some c → w.isSession c.session = true →
      ∃ ch w' k, Client.Request client route params responseJSON w = some (ch, w') ∧
        w'.chansSince w = [k] ∧ w'.chanAt ch = some k ∧ k.cap = 0 ∧ k.queue = [] ∧
        ∀ r, k.sendReady r = r) ∧
      (w.isSession session = true →
        ∃ cl ch w' k, getTokens session w = some ((cl, ch), w') ∧
        w'.chansSince w = [k] ∧ w'.chanAt ch = some k ∧ k.cap = 0 ∧ k.queue = [] ∧
        ∀ r, k.sendReady r = r) ∧
      (∃ cl ch w' s d k1 k2, NewDeviceClient clientId w = some ((cl, ch), w') ∧
        w'.chansSince w = [k1, k2] ∧
        w'.clientAt cl = some ⟨s⟩ ∧ w'.objAt s = some (Obj.device d) ∧
        w'.chanAt d.refreshStatusChecks = some k1 ∧ k1.cap = 0 ∧ k1.queue = [] ∧
        w'.chanAt ch = some k2 ∧ k2.cap = 0 ∧ k2.queue = [] ∧ ∀ r, k2.sendReady r = r) ∧
      ∃ cl ch w' k, NewApplicationClient clientId clientSecret w = some ((cl, ch), w') ∧
        w'.chansSince w = [k] ∧ w'.chanAt ch = some k ∧ k.cap = 0 ∧ k.queue = [] ∧
        ∀ r, k.sendReady r = r := by
  have hready : ∀ (t : ElemType) (r : Bool), Chan.sendReady ⟨t, 0, []⟩ r = r := by
    intro t r
    simp [Chan.sendReady]
  refine ⟨fun hc hs => ⟨_, _, ⟨ElemType.error, 0, []⟩,
      Client.Request_eq client c route params responseJSON w hc hs, ?_, ?_, rfl, rfl, hready _⟩,
    fun hsess => ⟨_, _, _, ⟨ElemType.error, 0, []⟩, getTokens_eq session w hsess, ?_, ?_, rfl,
      rfl, hready _⟩,
    ⟨_, _, _, Ref.addr w.heap.length,
      { clientId := clientId, refreshStatusChecks := Ref.addr w.chans.length },
      ⟨ElemType.refreshStatusCheck, 0, []⟩, ⟨ElemType.error, 0, []⟩,
      NewDeviceClient_eq clientId w, ?_, ?_, ?_, ?_, rfl, rfl, ?_, rfl, rfl, hready _⟩,
    ⟨_, _, _, ⟨ElemType.error, 0, []⟩, NewApplicationClient_eq clientId clientSecret w,
      ?_, ?_, rfl, rfl, hready _⟩⟩
  · simp [World.chansSince]
  · simp only [World.chanAt, getElem?_append_one]
  · simp [World.chansSince]
  · simp only [World.chanAt, getElem?_append_one]
  · simp [World.chansSince]
  · simp only [World.clientAt, World.objAt, getElem?_append_pair_snd]
  · simp only [World.objAt, getElem?_append_pair_fst]
  · simp only [World.chanAt, getElem?_append_pair_fst]
  · simp only [World.chanAt, getElem?_append_pair_snd]
  · simp [World.chansSince]
  · simp only [World.chanAt, getElem?_append_one]

theorem channels_unbuffered_witness :
    (∃ ch w' k, Client.Request (Ref.addr 1) "trigger/list" [] Value.null World.sample
          = some (ch, w') ∧
        w'.chansSince World.sample = [k] ∧ w'.chanAt ch = some k ∧ k.cap = 0 ∧ k.queue = [] ∧
        ∀ r, k.sendReady r = r) ∧
      (∃ cl ch w' k, getTokens (Ref.addr 0) World.sample = some ((cl, ch), w') ∧
        w'.chansSince World.sample = [k] ∧ w'.chanAt ch = some k ∧ k.cap = 0 ∧ k.queue = [] ∧
        ∀ r, k.sendReady r = r) ∧
      (∃ cl ch w' s d k1 k2, NewDeviceClient "abc" World.empty = some ((cl, ch), w') ∧
        w'.chansSince World.empty = [k1, k2] ∧
        w'.clientAt cl = some ⟨s⟩ ∧ w'.objAt s = some (Obj.device d) ∧
        w'.chanAt d.refreshStatusChecks = some k1 ∧ k1.cap = 0 ∧ k1.queue = [] ∧
        w'.chanAt ch = some k2 ∧ k2.cap = 0 ∧ k2.queue = [] ∧ ∀ r, k2.sendReady r = r) ∧
      ∃ cl ch w' k, NewApplicationClient "abc" "xyz" World.empty = some ((cl, ch), w') ∧
        w'.chansSince World.empty = [k] ∧ w'.chanAt ch = some k ∧ k.cap = 0 ∧ k.queue = [] ∧
        ∀ r, k.sendReady r = r :=
  ⟨(channels_unbuffered (Ref.addr 1) (Ref.addr 0) ⟨Ref.addr 0⟩ "trigger/list" [] Value.null
      "abc" "xyz" World.sample).1 rfl rfl,
    (channels_unbuffered (Ref.addr 1) (Ref.addr 0) ⟨Ref.addr 0⟩ "trigger/list" [] Value.null
      "abc" "xyz" World.sample).2.1 rfl,
    (channels_unbuffered Ref.nil Ref.nil ⟨Ref.nil⟩ "" [] Value.null
      "abc" "xyz" World.empty).2.2.1,
    (channels_unbuffered Ref.nil Ref.nil ⟨Ref.nil⟩ "" [] Value.null
      "abc" "xyz" World.empty).2.2.2⟩

/-! ## The claims settled on the session code as the specification describes it -/

theorem posts_finishAttempt (responseJSON : Value) (errorChan : Ref) (r : Response) :
    posts (finishAttempt responseJSON errorChan r) = 0 := by
  cases r <;> simp [finishAttempt, posts]

theorem sendsOn_finishAttempt (responseJSON : Value) (errorChan : Ref) (r : Response) :
    ∃ v, sendsOn errorChan (finishAttempt responseJSON errorChan r) = [v] ∧
      (v = none ↔ ∃ p, r = Response.ok p) := by
  cases r <;> simp [finishAttempt, sendsOn]

theorem posts_cons_post (route : String) (params : Params) (token : String) (evs : List Event) :
    posts (Event.post route params token :: evs) = posts evs + 1 := by
  simp [posts]

theorem posts_cons_refreshRequested (session : Ref) (evs : List Event) :
    posts (Event.refreshRequested session :: evs) = posts evs := by
  simp [posts]

theorem posts_geotriggerAPIRequest (env : Env) (token : String) (session : Ref) (route : String)
    (params : Params) (responseJSON : Value) (errorChan : Ref) :
    posts (geotriggerAPIRequest env token session route params responseJSON errorChan) ≤ 2 := by
  unfold geotriggerAPIRequest
  rw [posts_cons_post]
  cases h0 : env.api 0 with
  | ok p => simp [posts_finishAttempt]
  | transportError m => simp [posts_finishAttempt]
  | malformed m => simp [posts_finishAttempt]
  | authFailure m =>
    simp only [posts_cons_refreshRequested]
    cases env.refresh with
    | none => simp [posts]
    | some o =>
      cases o with
      | failed msg => simp [posts]
      | tokens ts => simp [posts_cons_post, posts_finishAttempt]

theorem geotriggerAPIRequest_rejected_twice (env : Env) (token : String) (session : Ref)
    (route : String) (params : Params) (responseJSON : Value) (errorChan : Ref)
    (m1 m2 : String) (ts : TokenSet) (h0 : env.api 0 = Response.authFailure m1)
    (hr : env.refresh = some (Outcome.tokens ts)) (h1 : env.api 1 = Response.authFailure m2) :
    geotriggerAPIRequest env token session route params responseJSON errorChan =
      [Event.post route params token, Event.refreshRequested session,
        Event.post route params ts.accessToken, Event.send errorChan (some m2)] := by
  simp [geotriggerAPIRequest, h0, hr, h1, finishAttempt]

theorem Client.Request_run_log (env : Env) (client : Ref) (c : Client) (route : String)
    (params : Params) (responseJSON : Value) (w : World) (hc : w.clientAt client = some c)
    (hs : w.isSession c.session = true) :
    ∃ w', Client.Request client route params responseJSON w =
        some (Ref.addr w.chans.length, w') ∧
      (w'.runAll env (w'.startedSince w)).log = w.log ++
        geotriggerAPIRequest env (w.accessTokenOf c.session) c.session route params
          responseJSON (Ref.addr w.chans.length) := by
  refine ⟨_, Client.Request_eq client c route params responseJSON w hc hs, ?_⟩
  simp [World.startedSince, World.runAll, World.run_log, Task.trace, World.accessTokenOf,
    World.objAt]

/-- C7: on a client and whatever the service answers, the goroutine that
`Client.Request` started sends the routed request at most twice (the original
and at most one retry).  When the service answers the first attempt with an
auth failure, the refresh succeeds and the service answers the retry with an
auth failure again, the goroutine does exactly this: the request with the
current token, the refresh request, the request once more with the new token,
and the error of the second rejection sent on the returned channel, with
nothing after it. -/
theorem request_retries_at_most_once (env : Env) (client : Ref) (c : Client) (route : String)
    (params : Params) (responseJSON : Value) (w : World) (hc : w.clientAt client = some c)
    (hs : w.isSession c.session = true) :
    ∃ errorChan w' evs, Client.Request client route params responseJSON w =
        some (errorChan, w') ∧
      (w'.runAll env (w'.startedSince w)).log = w.log ++ evs ∧
      posts evs ≤ 2 ∧
      ∀ m1 ts m2, env.api 0 = Response.authFailure m1 →
        env.refresh = some (Outcome.tokens ts) → env.api 1 = Response.authFailure m2 →
        evs = [Event.post route params (w.accessTokenOf c.session),
          Event.refreshRequested c.session, Event.post route params ts.accessToken,
          Event.send errorChan (some m2)] := by
  obtain ⟨w', hreq, hlog⟩ :=
    Client.Request_run_log env client c route params responseJSON w hc hs
  refine ⟨_, w', _, hreq, hlog, posts_geotriggerAPIRequest _ _ _ _ _ _ _, ?_⟩
  intro m1 ts m2 h0 hr h1
  exact geotriggerAPIRequest_rejected_twice env _ _ _ _ _ _ m1 m2 ts h0 hr h1

theorem request_retries_at_most_once_witness :
    ∃ errorChan w' evs,
      Client.Request (Ref.addr 1) "trigger/list" [] Value.null World.sample =
        some (errorChan, w') ∧
      (w'.runAll Env.rejecting (w'.startedSince World.sample)).log =
        World.sample.log ++ evs ∧
      posts evs ≤ 2 ∧
      evs = [Event.post "trigger/list" [] "", Event.refreshRequested (Ref.addr 0),
        Event.post "trigger/list" [] "t2", Event.send errorChan (some "invalid token")] :=
  match request_retries_at_most_once Env.rejecting (Ref.addr 1) ⟨Ref.addr 0⟩ "trigger/list" []
    Value.null World.sample rfl rfl with
  | ⟨ch, w', evs, h1, h2, h3, h4⟩ =>
    ⟨ch, w', evs, h1, h2, h3,
      h4 "invalid token" ⟨"t2", "r2", "d1"⟩ "invalid token" rfl rfl rfl⟩

theorem sendsOn_append (ch : Ref) (xs ys : List Event) :
    sendsOn ch (xs ++ ys) = sendsOn ch xs ++ sendsOn ch ys := by
  simp [sendsOn, List.filterMap_append]

theorem sendsOn_manager (ch session : Ref) (acts : List ManagerAction) :
    sendsOn ch (acts.map (Event.manager session)) = [] := by
  induction acts with
  | nil => rfl
  | cons a rest ih =>
    simp only [sendsOn, List.map_cons, List.filterMap_cons] at ih ⊢
    exact ih

theorem sendsOn_requestAccess (env : Env) (session errorChan : Ref) :
    ∃ v, sendsOn errorChan (requestAccess env session errorChan) = [v] ∧
      (v = none ↔ ∃ ts, env.access = Outcome.tokens ts) := by
  unfold requestAccess
  cases env.access with
  | tokens ts => exact ⟨none, by simp [sendsOn], by simp⟩
  | failed msg => exact ⟨some msg, by simp [sendsOn], by simp⟩

theorem sendsOn_started_by_getTokens (env : Env) (w : World) (session errorChan : Ref) :
    ∃ v, sendsOn errorChan
        (Task.trace env w (Task.requestAccess session errorChan) ++
          Task.trace env w (Task.tokenManager session)) = [v] ∧
      (v = none ↔ ∃ ts, env.access = Outcome.tokens ts) := by
  obtain ⟨v, hv, hnil⟩ := sendsOn_requestAccess env session errorChan
  refine ⟨v, ?_, hnil⟩
  rw [sendsOn_append]
  simp only [Task.trace, hv, sendsOn_manager, List.append_nil]

theorem sendsOn_geotriggerAPIRequest (env : Env) (token : String) (session : Ref)
    (route : String) (params : Params) (responseJSON : Value) (errorChan : Ref) :
    (sendsOn errorChan
        (geotriggerAPIRequest env token session route params responseJSON errorChan) = [] ∧
      (env.api 0).isAuthFailure = true ∧ env.refresh = none) ∨
    (((env.api 0).isAuthFailure = true → env.refresh ≠ none) ∧
      ∃ v, sendsOn errorChan
          (geotriggerAPIRequest env token session route params responseJSON errorChan) = [v] ∧
        (v = none ↔ (∃ p, env.api 0 = Response.ok p) ∨
          ∃ m ts p, env.api 0 = Response.authFailure m ∧
            env.refresh = some (Outcome.tokens ts) ∧ env.api 1 = Response.ok p)) := by
  have hpost : ∀ (tok : String) (evs : List Event),
      sendsOn errorChan (Event.post route params tok :: evs) = sendsOn errorChan evs := by
    intro tok evs
    simp [sendsOn]
  have hreq : ∀ (evs : List Event),
      sendsOn errorChan (Event.refreshRequested session :: evs) = sendsOn errorChan evs := by
    intro evs
    simp [sendsOn]
  unfold geotriggerAPIRequest
  rw [hpost]
  cases h0 : env.api 0 with
  | ok p =>
    obtain ⟨v, hv, hnil⟩ := sendsOn_finishAttempt responseJSON errorChan (Response.ok p)
    exact Or.inr ⟨by simp [Response.isAuthFailure], v, hv, by simp [hnil]⟩
  | transportError m =>
    obtain ⟨v, hv, hnil⟩ :=
      sendsOn_finishAttempt responseJSON errorChan (Response.transportError m)
    exact Or.inr ⟨by simp [Response.isAuthFailure], v, hv, by simp [hnil]⟩
  | malformed m =>
    obtain ⟨v, hv, hnil⟩ := sendsOn_finishAttempt responseJSON errorChan (Response.malformed m)
    exact Or.inr ⟨by simp [Response.isAuthFailure], v, hv, by simp [hnil]⟩
  | authFailure m =>
    simp only [hreq]
    cases hr : env.refresh with
    | none => exact Or.inl ⟨rfl, rfl, rfl⟩
    | some o =>
      cases o with
      | failed msg => exact Or.inr ⟨by simp, some msg, by simp [sendsOn], by simp⟩
      | tokens ts =>
        simp only [hpost]
        obtain ⟨v, hv, hnil⟩ := sendsOn_finishAttempt responseJSON errorChan (env.api 1)
        exact Or.inr ⟨by simp, v, hv, by simp [hnil]⟩

theorem Chan.deliver_ready (k : Chan) (vs : List (Option String)) : k.deliver true vs = vs := by
  induction vs with
  | nil => rfl
  | cons v rest ih => simp [Chan.deliver, Chan.sendReady, ih]

theorem Chan.deliver_unbuffered_blocked (k : Chan) (vs : List (Option String))
    (hcap : k.cap = 0) : k.deliver false vs = [] := by
  cases vs with
  | nil => rfl
  | cons v rest => simp [Chan.deliver, Chan.sendReady, hcap]

theorem World.valuesSent_unbuffered (w : World) (r : Bool) (ch : Ref) (k : Chan)
    (evs : List Event) (hk : w.chanAt ch = some k) (hcap : k.cap = 0) :
    w.valuesSent r ch evs = if r then sendsOn ch evs else [] := by
  unfold World.valuesSent
  rw [hk]
  cases r with
  | true => simp [Chan.deliver_ready]
  | false => simp [Chan.deliver_unbuffered_blocked k _ hcap]

theorem written_once_of_one_send (w : World) (r : Bool) (ch : Ref) (k : Chan)
    (evs : List Event) (v : Option String) (success : Prop) (hk : w.chanAt ch = some k)
    (hcap : k.cap = 0) (hv : sendsOn ch evs = [v]) (hnil : v = none ↔ success) :
    (w.valuesSent r ch evs).length ≤ 1 ∧
      (r = true → ∃ u, w.valuesSent r ch evs = [u] ∧ (u = none ↔ success)) ∧
      (r = false → w.valuesSent r ch evs = []) := by
  rw [World.valuesSent_unbuffered w r ch k evs hk hcap, hv]
  cases r with
  | true => exact ⟨by simp, fun _ => ⟨v, by simp, hnil⟩, fun h => by simp at h⟩
  | false => exact ⟨by simp, fun h => by simp at h, fun _ => by simp⟩

/-- C2, as the code has it: the goroutine that holds the channel returned by
`NewDeviceClient`, by `NewApplicationClient` or (on a client) by
`Client.Request` sends at most one value on it, whatever the service answers
and whatever the caller does, never two.  When the caller receives from the
channel, exactly one value is sent, nil exactly on success (the token set was
acquired; the request was answered with a payload, at once or at the retry
after a refresh that succeeded) and an error otherwise; for a request this
needs that the refresh it waits for, if it waits for one, has an outcome.  When
the caller does not receive, or the request waits for a refresh outcome that
never arrives, no value is sent. -/
theorem returned_channel_written_at_most_once (env : Env) (clientId clientSecret : String)
    (client : Ref) (c : Client) (route : String) (params : Params) (responseJSON : Value)
    (w : World) :
    (∃ cl errorChan w' evs, NewDeviceClient clientId w = some ((cl, errorChan), w') ∧
        (w'.runAll env (w'.startedSince w)).log = w.log ++ evs ∧
        (w'.valuesSent (env.receiving errorChan) errorChan evs).length ≤ 1 ∧
        (env.receiving errorChan = true →
          ∃ v, w'.valuesSent (env.receiving errorChan) errorChan evs = [v] ∧
            (v = none ↔ ∃ ts, env.access = Outcome.tokens ts)) ∧
        (env.receiving errorChan = false →
          w'.valuesSent (env.receiving errorChan) errorChan evs = [])) ∧
      (∃ cl errorChan w' evs,
        NewApplicationClient clientId clientSecret w = some ((cl, errorChan), w') ∧
        (w'.runAll env (w'.startedSince w)).log = w.log ++ evs ∧
        (w'.valuesSent (env.receiving errorChan) errorChan evs).length ≤ 1 ∧
        (env.receiving errorChan = true →
          ∃ v, w'.valuesSent (env.receiving errorChan) errorChan evs = [v] ∧
            (v = none ↔ ∃ ts, env.access = Outcome.tokens ts)) ∧
        (env.receiving errorChan = false →
          w'.valuesSent (env.receiving errorChan) errorChan evs = [])) ∧
      (w.clientAt client = some c → w.isSession c.session = true →
        ∃ errorChan w' evs,
          Client.Request client route params responseJSON w = some (errorChan, w') ∧
          (w'.runAll env (w'.startedSince w)).log = w.log ++ evs ∧
          (w'.valuesSent (env.receiving errorChan) errorChan evs).length ≤ 1 ∧
          (env.receiving errorChan = true →
            ((env.api 0).isAuthFailure = true → env.refresh ≠ none) →
            ∃ v, w'.valuesSent (env.receiving errorChan) errorChan evs = [v] ∧
              (v = none ↔ (∃ p, env.api 0 = Response.ok p) ∨
                ∃ m ts p, env.api 0 = Response.authFailure m ∧
                  env.refresh = some (Outcome.tokens ts) ∧ env.api 1 = Response.ok p)) ∧
          (env.receiving errorChan = false →
            w'.valuesSent (env.receiving errorChan) errorChan evs = []) ∧
          ((env.api 0).isAuthFailure = true → env.refresh = none →
            w'.valuesSent (env.receiving errorChan) errorChan evs = [])) := by
  refine ⟨?_, ?_, ?_⟩
  · obtain ⟨v, hv, hnil⟩ := sendsOn_started_by_getTokens env w (Ref.addr w.heap.length)
      (Ref.addr (w.chans.length + 1))
    refine ⟨_, _, _,
      Task.trace env w
          (Task.requestAccess (Ref.addr w.heap.length) (Ref.addr (w.chans.length + 1))) ++
        Task.trace env w (Task.tokenManager (Ref.addr w.heap.length)),
      NewDeviceClient_eq clientId w, ?_, ?_⟩
    · simp only [World.startedSince, List.drop_left, World.runAll_pair_log]
      rfl
    · exact written_once_of_one_send _ _ _ ⟨ElemType.error, 0, []⟩ _ v _
        (by simp only [World.chanAt, getElem?_append_pair_snd]) rfl hv hnil
  · obtain ⟨v, hv, hnil⟩ := sendsOn_started_by_getTokens env w (Ref.addr w.heap.length)
      (Ref.addr w.chans.length)
    refine ⟨_, _, _,
      Task.trace env w
          (Task.requestAccess (Ref.addr w.heap.length) (Ref.addr w.chans.length)) ++
        Task.trace env w (Task.tokenManager (Ref.addr w.heap.length)),
      NewApplicationClient_eq clientId clientSecret w, ?_, ?_⟩
    · simp only [World.startedSince, List.drop_left, World.runAll_pair_log]
      rfl
    · exact written_once_of_one_send _ _ _ ⟨ElemType.error, 0, []⟩ _ v _
        (by simp only [World.chanAt, getElem?_append_one]) rfl hv hnil
  · intro hc hs
    obtain ⟨w', hreq, hlog⟩ :=
      Client.Request_run_log env client c route params responseJSON w hc hs
    have hk : w'.chanAt (Ref.addr w.chans.length) = some ⟨ElemType.error, 0, []⟩ := by
      have h := Client.Request_eq client c route params responseJSON w hc hs
      rw [hreq] at h
      have h2 := congrArg Prod.snd (Option.some.inj h)
      simp only at h2
      rw [h2]
      simp only [World.chanAt, getElem?_append_one]
    refine ⟨_, w', _, hreq, hlog, ?_⟩
    rcases sendsOn_geotriggerAPIRequest env (w.accessTokenOf c.session) c.session route params
      responseJSON (Ref.addr w.chans.length) with ⟨hnone, hauth, hrefresh⟩ | ⟨hcond, v, hv, hnil⟩
    · have hval : ∀ r, w'.valuesSent r (Ref.addr w.chans.length)
          (geotriggerAPIRequest env (w.accessTokenOf c.session) c.session route params
            responseJSON (Ref.addr w.chans.length)) = [] := by
        intro r
        rw [World.valuesSent_unbuffered w' r _ _ _ hk rfl, hnone]
        simp
      refine ⟨by simp [hval], fun _ hc2 => absurd hrefresh (hc2 hauth), fun _ => hval _,
        fun _ _ => hval _⟩
    · obtain ⟨h1, h2, h3⟩ := written_once_of_one_send w' (env.receiving (Ref.addr w.chans.length))
        _ ⟨ElemType.error, 0, []⟩ _ v _ hk rfl hv hnil
      exact ⟨h1, fun hr _ => h2 hr, h3, fun ha hn => absurd hn (hcond ha)⟩

theorem returned_channel_written_at_most_once_witness :
    (∃ cl errorChan w' evs, NewDeviceClient "abc" World.empty = some ((cl, errorChan), w') ∧
        (w'.runAll Env.rejecting (w'.startedSince World.empty)).log = World.empty.log ++ evs ∧
        ∃ v, w'.valuesSent (Env.rejecting.receiving errorChan) errorChan evs = [v] ∧
          (v = none ↔ ∃ ts, Env.rejecting.access = Outcome.tokens ts)) ∧
      (∃ cl errorChan w' evs,
        NewApplicationClient "abc" "xyz" World.empty = some ((cl, errorChan), w') ∧
        (w'.runAll Env.unread (w'.startedSince World.empty)).log = World.empty.log ++ evs ∧
        w'.valuesSent (Env.unread.receiving errorChan) errorChan evs = []) ∧
      ∃ errorChan w' evs,
        Client.Request (Ref.addr 1) "trigger/list" [] Value.null World.sample =
          some (errorChan, w') ∧
        (w'.runAll Env.rejecting (w'.startedSince World.sample)).log =
          World.sample.log ++ evs ∧
        ∃ v, w'.valuesSent (Env.rejecting.receiving errorChan) errorChan evs = [v] ∧
          (v = none ↔ (∃ p, Env.rejecting.api 0 = Response.ok p) ∨
            ∃ m ts p, Env.rejecting.api 0 = Response.authFailure m ∧
              Env.rejecting.refresh = some (Outcome.tokens ts) ∧
              Env.rejecting.api 1 = Response.ok p) :=
  ⟨(match (returned_channel_written_at_most_once Env.rejecting "abc" "xyz" Ref.nil ⟨Ref.nil⟩
        "" [] Value.null World.empty).1 with
      | ⟨cl, ch, w', evs, h1, h2, _, h4, _⟩ => ⟨cl, ch, w', evs, h1, h2, h4 rfl⟩),
    (match (returned_channel_written_at_most_once Env.unread "abc" "xyz" Ref.nil ⟨Ref.nil⟩
        "" [] Value.null World.empty).2.1 with
      | ⟨cl, ch, w', evs, h1, h2, _, _, h5⟩ => ⟨cl, ch, w', evs, h1, h2, h5 rfl⟩),
    (match (returned_channel_written_at_most_once Env.rejecting "abc" "xyz" (Ref.addr 1)
        ⟨Ref.addr 0⟩ "trigger/list" [] Value.null World.sample).2.2 rfl rfl with
      | ⟨ch, w', evs, h1, h2, _, h4, _, _⟩ =>
        ⟨ch, w', evs, h1, h2, h4 rfl (fun _ => by simp [Env.rejecting])⟩)⟩

/-- C2 as stated fails, in two ways.  `NewDeviceClient "abc"` in the empty
world, the service registers the device, and the caller never receives from the
returned channel: the goroutine `requestAccess` gets to its send of nil, the
unbuffered channel does not let it proceed, and no value is sent on the
returned channel.  `Request` on a client, the service rejects the token, and
the refresh the request waits for never has an outcome: the goroutine never
gets to a send, and no value is sent on the returned channel although the
caller receives.  Zero values, not one. -/
theorem returned_channel_gets_no_value :
    (∃ cl errorChan w', NewDeviceClient "abc" World.empty = some ((cl, errorChan), w') ∧
        sendsOn errorChan (w'.runAll Env.unread (w'.startedSince World.empty)).log = [none] ∧
        w'.valuesSent (Env.unread.receiving errorChan) errorChan
          (w'.runAll Env.unread (w'.startedSince World.empty)).log = []) ∧
      ∃ errorChan w',
        Client.Request (Ref.addr 1) "trigger/list" [] Value.null World.sample =
          some (errorChan, w') ∧
        Env.stalled.receiving errorChan = true ∧
        sendsOn errorChan (w'.runAll Env.stalled (w'.startedSince World.sample)).log = [] ∧
        w'.valuesSent (Env.stalled.receiving errorChan) errorChan
          (w'.runAll Env.stalled (w'.startedSince World.sample)).log = [] :=
  ⟨⟨Ref.addr 1, Ref.addr 1, _, rfl, rfl, rfl⟩, ⟨Ref.addr 1, _, rfl, rfl, rfl, rfl⟩⟩

/-- The registration scenario of the specification: a device client is built
for clientId "abc", the service answers with device id "d1" and access token
"t1"; once the started goroutines have run, the session info of the client has
"t1" under access_token and "d1" under device_id. -/
theorem device_registration_scenario :
    ∃ cl errorChan w' m, NewDeviceClient "abc" World.empty = some ((cl, errorChan), w') ∧
      Client.GetSessionInfo getSessionInfo cl
          (w'.runAll Env.unread (w'.startedSince World.empty)) =
        some (m, w'.runAll Env.unread (w'.startedSince World.empty)) ∧
      m.lookup "access_token" = some "t1" ∧ m.lookup "device_id" = some "d1" :=
  ⟨Ref.addr 1, Ref.addr 1, _, _, rfl, rfl, by decide, by decide⟩

/-- C3: on a client, the map `GetSessionInfo` returns has the keys
access_token, client_id and client_secret and not the key device_id when the
session is an application, and the keys access_token, refresh_token, device_id
and client_id when the session is a device. -/
theorem GetSessionInfo_keys (client : Ref) (c : Client) (w : World)
    (hc : w.clientAt client = some c) :
    (∀ a, w.objAt c.session = some (Obj.application a) →
        ∃ m, Client.GetSessionInfo getSessionInfo client w = some (m, w) ∧
          m.hasKey "access_token" = true ∧ m.hasKey "client_id" = true ∧
          m.hasKey "client_secret" = true ∧ m.hasKey "device_id" = false) ∧
      ∀ d, w.objAt c.session = some (Obj.device d) →
        ∃ m, Client.GetSessionInfo getSessionInfo client w = some (m, w) ∧
          m.hasKey "access_token" = true ∧ m.hasKey "refresh_token" = true ∧
          m.hasKey "device_id" = true ∧ m.hasKey "client_id" = true := by
  constructor
  · intro a ha
    refine ⟨[("access_token", a.accessToken), ("client_id", a.clientId),
      ("client_secret", a.clientSecret)], ?_, ?_, ?_, ?_, ?_⟩
    · simp [Client.GetSessionInfo, hc, World.isSession, ha, getSessionInfo]
    all_goals simp [StringMap.hasKey]
  · intro d hd
    refine ⟨[("access_token", d.accessToken), ("refresh_token", d.refreshToken),
      ("device_id", d.deviceId), ("client_id", d.clientId)], ?_, ?_, ?_, ?_, ?_⟩
    · simp [Client.GetSessionInfo, hc, World.isSession, hd, getSessionInfo]
    all_goals simp [StringMap.hasKey]

theorem GetSessionInfo_keys_witness :
    (∃ m, Client.GetSessionInfo getSessionInfo (Ref.addr 1) World.sample =
          some (m, World.sample) ∧
        m.hasKey "access_token" = true ∧ m.hasKey "client_id" = true ∧
        m.hasKey "client_secret" = true ∧ m.hasKey "device_id" = false) ∧
      ∃ m, Client.GetSessionInfo getSessionInfo (Ref.addr 1) World.sampleDevice =
          some (m, World.sampleDevice) ∧
        m.hasKey "access_token" = true ∧ m.hasKey "refresh_token" = true ∧
        m.hasKey "device_id" = true ∧ m.hasKey "client_id" = true :=
  ⟨(GetSessionInfo_keys (Ref.addr 1) ⟨Ref.addr 0⟩ World.sample rfl).1 _ rfl,
    (GetSessionInfo_keys (Ref.addr 1) ⟨Ref.addr 0⟩ World.sampleDevice rfl).2 _ rfl⟩

/-! ## Concurrent requests and the one refresh -/

theorem refreshCalls_append (xs ys : List Event) :
    refreshCalls (xs ++ ys) = refreshCalls xs + refreshCalls ys := by
  simp [refreshCalls, List.countP_append]

theorem deliveries_append (xs ys : List Event) :
    deliveries (xs ++ ys) = deliveries xs ++ deliveries ys := by
  simp [deliveries, List.filterMap_append]

theorem refreshCalls_decoding (responseJSON : Value) (r : Response) :
    refreshCalls (decoding responseJSON r) = 0 := by
  cases r <;> simp [decoding, refreshCalls]

theorem deliveries_decoding (responseJSON : Value) (r : Response) :
    deliveries (decoding responseJSON r) = [] := by
  cases r <;> simp [decoding, deliveries]

theorem refreshCalls_post (route : String) (params : Params) (token : String)
    (evs : List Event) :
    refreshCalls (Event.post route params token :: evs) = refreshCalls evs := by
  simp [refreshCalls]

theorem deliveries_post (route : String) (params : Params) (token : String)
    (evs : List Event) :
    deliveries (Event.post route params token :: evs) = deliveries evs := by
  simp [deliveries]

theorem refreshCalls_send (ch : Ref) (v : Option String) :
    refreshCalls [Event.send ch v] = 0 := by
  simp [refreshCalls]

theorem deliveries_send (ch : Ref) (v : Option String) :
    deliveries [Event.send ch v] = [] := by
  simp [deliveries]

theorem refreshCalls_completion (session : Ref) (o : Outcome) (q : List Nat) :
    refreshCalls (((match o with
      | Outcome.tokens ts => [ManagerAction.store ts]
      | Outcome.failed _ => []) ++ q.map (fun r => ManagerAction.deliver r o)).map
        (Event.manager session)) = 0 := by
  unfold refreshCalls
  rw [List.countP_eq_zero]
  intro e he
  rw [List.mem_map] at he
  obtain ⟨a, ha, rfl⟩ := he
  rw [List.mem_append] at ha
  rcases ha with ha | ha
  · cases o <;> simp at ha
    subst ha
    simp
  · rw [List.mem_map] at ha
    obtain ⟨r, _, rfl⟩ := ha
    simp

theorem deliveries_completion (session : Ref) (o : Outcome) (q : List Nat) :
    deliveries (((match o with
      | Outcome.tokens ts => [ManagerAction.store ts]
      | Outcome.failed _ => []) ++ q.map (fun r => ManagerAction.deliver r o)).map
        (Event.manager session)) = q.map (fun r => (r, o)) := by
  rw [List.map_append, deliveries_append]
  have h1 : deliveries ((match o with
      | Outcome.tokens ts => [ManagerAction.store ts]
      | Outcome.failed _ => []).map (Event.manager session)) = [] := by
    cases o <;> simp [deliveries]
  rw [h1, List.nil_append]
  induction q with
  | nil => rfl
  | cons r rest ih =>
    simp only [List.map_cons, deliveries, List.filterMap_cons] at ih ⊢
    rw [ih]

theorem mem_completion (o : Outcome) (q : List Nat) (j : Nat) :
    ManagerAction.deliver j o ∈ ((match o with
      | Outcome.tokens ts => [ManagerAction.store ts]
      | Outcome.failed _ => []) ++ q.map (fun r => ManagerAction.deliver r o)) ↔ j ∈ q := by
  rw [List.mem_append]
  constructor
  · intro h
    rcases h with h | h
    · cases o <;> simp at h
    · rw [List.mem_map] at h
      obtain ⟨r, hr, heq⟩ := h
      cases heq
      exact hr
  · intro h
    exact Or.inr (List.mem_map.mpr ⟨j, h, rfl⟩)

theorem System.run_requests (svc : Service) (s : System) (i : Nat) :
    (s.run svc i).requests = s.requests := by
  unfold System.run
  repeat' (first | rfl | split)

theorem System.step_requests (svc : Service) (s : System) (a : Action) :
    (System.step svc s a).requests = s.requests := by
  cases a with
  | run i => exact System.run_requests svc s i
  | refreshDone o => rfl

theorem System.exec_requests (svc : Service) (s : System) (sched : List Action) :
    (s.exec svc sched).requests = s.requests := by
  unfold System.exec
  induction sched generalizing s with
  | nil => rfl
  | cons a rest ih => rw [List.foldl_cons, ih, System.step_requests]

theorem System.exec_append (svc : Service) (s : System) (xs ys : List Action) :
    s.exec svc (xs ++ ys) = (s.exec svc xs).exec svc ys := by
  simp [System.exec, List.foldl_append]

theorem System.exec_cons (svc : Service) (s : System) (a : Action) (rest : List Action) :
    s.exec svc (a :: rest) = (System.step svc s a).exec svc rest := by
  rfl

theorem System.run_of_none (svc : Service) (s : System) (i : Nat)
    (hreq : s.requests[i]? = none) : s.run svc i = s := by
  simp [System.run, hreq]

theorem System.run_of_waiting (svc : Service) (s : System) (i : Nat)
    (hst : s.stage i = Stage.waiting) : s.run svc i = s := by
  unfold System.run
  split
  · simp [hst]
  · rfl

theorem System.run_detect (svc : Service) (s : System) (i : Nat) (session : Ref)
    (route : String) (params : Params) (responseJSON : Value) (errorChan : Ref) (m : String)
    (hreq : s.requests[i]? =
      some (Task.geotriggerAPIRequest session route params responseJSON errorChan))
    (hst : s.stage i = Stage.start) (hans : svc.answer i 0 = Response.authFailure m) :
    (s.run svc i).stage = Function.update s.stage i Stage.waiting ∧
      (s.run svc i).manager =
        (tokenManagerStep s.manager (ManagerInput.refreshRequested i)).1 ∧
      (s.run svc i).world.log = s.world.log ++
        (Event.post route params (s.world.accessTokenOf session) ::
          Event.refreshRequested session ::
          (tokenManagerStep s.manager (ManagerInput.refreshRequested i)).2.map
            (Event.manager session)) := by
  simp [System.run, hreq, hst, hans, World.logged]

theorem System.run_detecting (svc : Service) (s : System) (i : Nat) (c0 : Nat)
    (d0 : List (Nat × Outcome))
    (hexp : ∀ j, j < s.requests.length → (svc.answer j 0).isAuthFailure = true)
    (hreqs : ∀ t ∈ s.requests, t.isRequest = true) (h : s.Detecting c0 d0) :
    (s.run svc i).Detecting c0 d0 ∧
      (∀ j, s.stage j = Stage.waiting → (s.run svc i).stage j = Stage.waiting) ∧
      (i < s.requests.length → (s.run svc i).stage i = Stage.waiting) := by
  obtain ⟨h1, h2, h3, h4, h5, h6⟩ := h
  cases hreq : s.requests[i]? with
  | none =>
    rw [System.run_of_none svc s i hreq]
    refine ⟨⟨h1, h2, h3, h4, h5, h6⟩, fun j hj => hj, fun hi => ?_⟩
    rw [List.getElem?_eq_none_iff] at hreq
    exact absurd hi (Nat.not_lt.mpr hreq)
  | some t =>
    have hi : i < s.requests.length := by
      obtain ⟨hlt, _⟩ := List.getElem?_eq_some_iff.mp hreq
      exact hlt
    have ht : t.isRequest = true := hreqs t (List.getElem?_mem hreq)
    cases t with
    | requestAccess sess ch => simp [Task.isRequest] at ht
    | tokenManager sess => simp [Task.isRequest] at ht
    | geotriggerAPIRequest session route params responseJSON errorChan =>
      rcases h1 i with hst | hst
      · have hauth := hexp i hi
        cases hans : svc.answer i 0 with
        | ok p => rw [hans] at hauth; simp [Response.isAuthFailure] at hauth
        | transportError msg => rw [hans] at hauth; simp [Response.isAuthFailure] at hauth
        | malformed msg => rw [hans] at hauth; simp [Response.isAuthFailure] at hauth
        | authFailure m =>
          obtain ⟨hstage, hman, hlog⟩ :=
            System.run_detect svc s i session route params responseJSON errorChan m hreq hst hans
          have hrq := System.run_requests svc s i
          have hnotin : i ∉ s.manager.waiting := by
            intro hin
            have := (h4 i).mp hin
            rw [hst] at this
            exact absurd this (by decide)
          have hA : ∀ j, (s.run svc i).stage j = Stage.start ∨
              (s.run svc i).stage j = Stage.waiting := by
            intro j
            rw [hstage]
            by_cases hj : j = i
            · subst hj
              exact Or.inr (Function.update_same _ _ _)
            · rw [Function.update_noteq hj]
              exact h1 j
          have hB : ∀ j, (s.run svc i).stage j = Stage.waiting →
              j < (s.run svc i).requests.length := by
            intro j hjw
            rw [hrq]
            by_cases hj : j = i
            · subst hj
              exact hi
            · rw [hstage, Function.update_noteq hj] at hjw
              exact h2 j hjw
          have hC : ∀ j, s.stage j = Stage.waiting → (s.run svc i).stage j = Stage.waiting := by
            intro j hjw
            rw [hstage]
            by_cases hj : j = i
            · subst hj
              exact Function.update_same _ _ _
            · rw [Function.update_noteq hj]
              exact hjw
          have hD : (s.run svc i).stage i = Stage.waiting := by
            rw [hstage]
            exact Function.update_same _ _ _
          refine ⟨⟨hA, hB, ?_, ?_, ?_, ?_⟩, hC, fun _ => hD⟩
          · rw [hman]
            cases hm : s.manager with
            | idle => simp [tokenManagerStep, ManagerState.waiting]
            | refreshing q =>
              rw [hm] at hnotin h3
              simp only [ManagerState.waiting] at hnotin h3
              simp only [tokenManagerStep, ManagerState.waiting]
              rw [List.nodup_append]
              refine ⟨h3, List.nodup_singleton i, ?_⟩
              intro a ha hb
              rw [List.mem_singleton] at hb
              subst hb
              exact hnotin ha
          · intro j
            rw [hman, hstage]
            have h4j := h4 j
            cases hm : s.manager with
            | idle =>
              rw [hm] at h4j
              simp only [ManagerState.waiting, List.not_mem_nil, false_iff] at h4j
              simp only [tokenManagerStep, ManagerState.waiting, List.mem_singleton]
              by_cases hj : j = i
              · subst hj
                simp
              · rw [Function.update_noteq hj]
                simp [hj, h4j]
            | refreshing q =>
              rw [hm] at h4j
              simp only [ManagerState.waiting] at h4j
              simp only [tokenManagerStep, ManagerState.waiting, List.mem_append,
                List.mem_singleton]
              by_cases hj : j = i
              · subst hj
                simp
              · rw [Function.update_noteq hj]
                simp [hj, h4j]
          · rw [hlog, hman, refreshCalls_append, h5]
            cases hm : s.manager with
            | idle => simp [tokenManagerStep, refreshCalls]
            | refreshing q => simp [tokenManagerStep, refreshCalls]
          · rw [hlog, deliveries_append, h6]
            cases hm : s.manager with
            | idle => simp [tokenManagerStep, deliveries]
            | refreshing q => simp [tokenManagerStep, deliveries]
      · rw [System.run_of_waiting svc s i hst]
        exact ⟨⟨h1, h2, h3, h4, h5, h6⟩, fun j hj => hj, fun _ => hst⟩

theorem System.exec_detecting (svc : Service) (pre : List Action) (s : System) (c0 : Nat)
    (d0 : List (Nat × Outcome)) (hpre : ∀ a ∈ pre, a.isRun = true)
    (hexp : ∀ j, j < s.requests.length → (svc.answer j 0).isAuthFailure = true)
    (hreqs : ∀ t ∈ s.requests, t.isRequest = true) (h : s.Detecting c0 d0) :
    (s.exec svc pre).Detecting c0 d0 ∧
      (∀ j, s.stage j = Stage.waiting → (s.exec svc pre).stage j = Stage.waiting) ∧
      (∀ i, Action.run i ∈ pre → i < s.requests.length →
        (s.exec svc pre).stage i = Stage.waiting) := by
  induction pre generalizing s with
  | nil =>
    refine ⟨h, fun j hj => hj, fun i hi => ?_⟩
    simp at hi
  | cons a rest ih =>
    rw [System.exec_cons]
    cases a with
    | refreshDone o =>
      have := hpre (Action.refreshDone o) (List.mem_cons_self _ _)
      simp [Action.isRun] at this
    | run i =>
      obtain ⟨hd1, hmono1, hi1⟩ := System.run_detecting svc s i c0 d0 hexp hreqs h
      have hrq : (s.run svc i).requests = s.requests := System.run_requests svc s i
      obtain ⟨hd2, hmono2, hin2⟩ := ih (s.run svc i)
        (fun a ha => hpre a (List.mem_cons_of_mem _ ha))
        (by rw [hrq]; exact hexp) (by rw [hrq]; exact hreqs) hd1
      refine ⟨hd2, fun j hj => hmono2 j (hmono1 j hj), fun j hj hlt => ?_⟩
      rw [List.mem_cons] at hj
      rcases hj with hj | hj
      · cases hj
        exact hmono2 i (hi1 hlt)
      · exact hin2 j hj (by rw [hrq]; exact hlt)

theorem Stage.resumed_ne_start (o : Outcome) : Stage.resumed o ≠ Stage.start := by
  cases o <;> simp [Stage.resumed]

theorem System.refreshDone_settles (s : System) (o : Outcome) (c0 : Nat)
    (d0 : List (Nat × Outcome)) (h : s.Detecting c0 d0) (hN : 0 < s.requests.length)
    (hall : ∀ i, i < s.requests.length → s.stage i = Stage.waiting) :
    (s.refreshDone o).Settled ∧ refreshCalls (s.refreshDone o).world.log = c0 + 1 ∧
      ∃ q : List Nat, q.Perm (List.range s.requests.length) ∧
        deliveries (s.refreshDone o).world.log = d0 ++ q.map (fun r => (r, o)) := by
  obtain ⟨_, h2, h3, h4, h5, h6⟩ := h
  cases hm : s.manager with
  | idle =>
    have h0 := (h4 0).mpr (hall 0 hN)
    rw [hm] at h0
    simp [ManagerState.waiting] at h0
  | refreshing q =>
    rw [hm] at h3 h4 h5
    simp only [ManagerState.waiting] at h3 h4
    have hlog : (s.refreshDone o).world.log = s.world.log ++
        ((match o with
          | Outcome.tokens ts => [ManagerAction.store ts]
          | Outcome.failed _ => []) ++ q.map (fun r => ManagerAction.deliver r o)).map
          (Event.manager s.session) := by
      simp only [System.refreshDone, hm, tokenManagerStep, World.logged, World.storeAll_log]
    have hstage : ∀ j, (s.refreshDone o).stage j =
        if j ∈ q then Stage.resumed o else s.stage j := by
      intro j
      simp only [System.refreshDone, hm, tokenManagerStep, mem_completion]
    refine ⟨⟨?_, ?_⟩, ?_, q, ?_, ?_⟩
    · simp only [System.refreshDone, hm, tokenManagerStep]
    · intro i hi
      have hiq : i ∈ q := (h4 i).mpr (hall i hi)
      rw [hstage, if_pos hiq]
      exact Stage.resumed_ne_start o
    · rw [hlog, refreshCalls_append, refreshCalls_completion, h5]
      simp
    · rw [List.perm_ext_iff_of_nodup h3 (List.nodup_range _)]
      intro j
      rw [List.mem_range, h4 j]
      exact ⟨h2 j, hall j⟩
    · rw [hlog, deliveries_append, deliveries_completion, h6]

theorem System.step_settled (svc : Service) (s : System) (a : Action) (h : s.Settled) :
    (System.step svc s a).Settled ∧
      refreshCalls (System.step svc s a).world.log = refreshCalls s.world.log ∧
      deliveries (System.step svc s a).world.log = deliveries s.world.log := by
  obtain ⟨hidle, hns⟩ := h
  cases a with
  | refreshDone o =>
    have hman : (s.refreshDone o).manager = ManagerState.idle := by
      simp only [System.refreshDone, hidle, tokenManagerStep]
    have hstage : (s.refreshDone o).stage = s.stage := by
      funext j
      simp only [System.refreshDone, hidle, tokenManagerStep, List.not_mem_nil, if_false]
    have hlog : (s.refreshDone o).world.log = s.world.log := by
      simp only [System.refreshDone, hidle, tokenManagerStep, World.logged, World.storeAll_log,
        List.map_nil, List.append_nil]
    refine ⟨⟨hman, ?_⟩, ?_, ?_⟩
    · intro i hi
      show (s.refreshDone o).stage i ≠ Stage.start
      rw [hstage]
      exact hns i hi
    · show refreshCalls (s.refreshDone o).world.log = _
      rw [hlog]
    · show deliveries (s.refreshDone o).world.log = _
      rw [hlog]
  | run i =>
    show (s.run svc i).Settled ∧ refreshCalls (s.run svc i).world.log = _ ∧
      deliveries (s.run svc i).world.log = _
    have hsame : s.Settled ∧ refreshCalls s.world.log = refreshCalls s.world.log ∧
        deliveries s.world.log = deliveries s.world.log := ⟨⟨hidle, hns⟩, rfl, rfl⟩
    have hupd : ∀ (st : Stage), st ≠ Stage.start → ∀ j, j < s.requests.length →
        Function.update s.stage i st j ≠ Stage.start := by
      intro st hst j hj
      by_cases hji : j = i
      · subst hji
        rw [Function.update_same]
        exact hst
      · rw [Function.update_noteq hji]
        exact hns j hj
    cases hreq : s.requests[i]? with
    | none =>
      rw [System.run_of_none svc s i hreq]
      exact hsame
    | some t =>
      have hi : i < s.requests.length := by
        obtain ⟨hlt, _⟩ := List.getElem?_eq_some_iff.mp hreq
        exact hlt
      cases t with
      | requestAccess sess ch =>
        have : s.run svc i = s := by simp [System.run, hreq]
        rw [this]
        exact hsame
      | tokenManager sess =>
        have : s.run svc i = s := by simp [System.run, hreq]
        rw [this]
        exact hsame
      | geotriggerAPIRequest session route params responseJSON errorChan =>
        cases hst : s.stage i with
        | start => exact absurd hst (hns i hi)
        | waiting =>
          rw [System.run_of_waiting svc s i hst]
          exact hsame
        | done =>
          have : s.run svc i = s := by simp [System.run, hreq, hst]
          rw [this]
          exact hsame
        | retry ts =>
          have hrun : s.run svc i = { s with
              world := s.world.logged
                (Event.post route params ts.accessToken ::
                  decoding responseJSON (svc.answer i 1)),
              stage := Function.update s.stage i (Stage.signal (svc.answer i 1).verdict) } := by
            simp [System.run, hreq, hst]
          rw [hrun]
          refine ⟨⟨hidle, hupd _ (by simp)⟩, ?_, ?_⟩
          · simp only [World.logged, refreshCalls_append, refreshCalls_post,
              refreshCalls_decoding, Nat.add_zero]
          · simp only [World.logged, deliveries_append, deliveries_post, deliveries_decoding,
              List.append_nil]
        | signal v =>
          cases hk : s.world.chanAt errorChan with
          | none =>
            have : s.run svc i = s := by simp [System.run, hreq, hst, hk]
            rw [this]
            exact hsame
          | some k =>
            by_cases hready : k.sendReady (svc.receiving errorChan) = true
            · have hrun : s.run svc i = { s with
                  world := (if svc.receiving errorChan then s.world
                    else s.world.buffered errorChan v).logged [Event.send errorChan v],
                  stage := Function.update s.stage i Stage.done } := by
                simp [System.run, hreq, hst, hk, hready]
              have hbuf : (if svc.receiving errorChan = true then s.world
                  else s.world.buffered errorChan v).log = s.world.log := by
                split
                · rfl
                · unfold World.buffered
                  split
                  · rfl
                  · split <;> rfl
              rw [hrun]
              refine ⟨⟨hidle, hupd _ (by simp)⟩, ?_, ?_⟩
              · simp only [World.logged, refreshCalls_append, refreshCalls_send, hbuf,
                  Nat.add_zero]
              · simp only [World.logged, deliveries_append, deliveries_send, hbuf,
                  List.append_nil]
            · have : s.run svc i = s := by simp [System.run, hreq, hst, hk, hready]
              rw [this]
              exact hsame

theorem System.exec_settled (svc : Service) (sched : List Action) (s : System)
    (h : s.Settled) :
    refreshCalls (s.exec svc sched).world.log = refreshCalls s.world.log ∧
      deliveries (s.exec svc sched).world.log = deliveries s.world.log := by
  induction sched generalizing s with
  | nil => exact ⟨rfl, rfl⟩
  | cons a rest ih =>
    rw [System.exec_cons]
    obtain ⟨hs1, hc1, hd1⟩ := System.step_settled svc s a h
    obtain ⟨hc2, hd2⟩ := ih (System.step svc s a) hs1
    exact ⟨hc2.trans hc1, hd2.trans hd1⟩

theorem dropWhile_head_not {α : Type} (p : α → Bool) (l : List α) (a : α) (rest : List α)
    (h : l.dropWhile p = a :: rest) : p a = false := by
  induction l with
  | nil => simp at h
  | cons x xs ih =>
    rw [List.dropWhile_cons] at h
    by_cases hx : p x = true
    · rw [if_pos hx] at h
      exact ih h
    · rw [if_neg hx] at h
      cases h
      simpa using hx

theorem requestAll_eq (client : Ref) (c : Client) (calls : List (String × Params × Value))
    (w : World) (hc : w.clientAt client = some c) (hs : w.isSession c.session = true) :
    ∃ chans w' ts, requestAll client calls w = some (chans, w') ∧
      w'.tasks = w.tasks ++ ts ∧ ts.length = calls.length ∧ chans.length = calls.length ∧
      (∀ t ∈ ts, t.isRequest = true ∧ t.session = c.session) ∧
      w'.log = w.log ∧ w'.heap = w.heap := by
  induction calls generalizing w with
  | nil => exact ⟨[], w, [], rfl, by simp, rfl, rfl, by simp, rfl, rfl⟩
  | cons call rest ih =>
    obtain ⟨route, params, responseJSON⟩ := call
    have hreq := Client.Request_eq client c route params responseJSON w hc hs
    obtain ⟨chans, w', ts, hall, htasks, hlen, hclen, hts, hlog, hheap⟩ :=
      ih ⟨w.chans ++ [⟨ElemType.error, 0, []⟩], w.heap,
        w.tasks ++ [Task.geotriggerAPIRequest c.session route params responseJSON
          (Ref.addr w.chans.length)], w.log⟩ hc hs
    refine ⟨Ref.addr w.chans.length :: chans, w',
      Task.geotriggerAPIRequest c.session route params responseJSON
        (Ref.addr w.chans.length) :: ts, ?_, ?_, ?_, ?_, ?_, hlog, hheap⟩
    · simp only [requestAll, hreq, hall]
    · rw [htasks]
      simp
    · simp [hlen]
    · simp [hclen]
    · intro t ht
      rw [List.mem_cons] at ht
      rcases ht with ht | ht
      · subst ht
        exact ⟨rfl, rfl⟩
      · exact hts t ht

/-- C6: a caller issues N requests (N at least 1) on one client, the service
answers the first attempt of each with an auth failure, and the goroutines run
concurrently under any schedule in which they meet the expired token
simultaneously, that is, each has taken a step before a refresh first returns.
Then over the whole schedule the token manager makes exactly one network
refresh call; when that refresh returns with an outcome, the outcome is
delivered to each of the N requests, once each, the same for all; and as long
as it has not returned, nothing is delivered. -/
theorem one_refresh_for_simultaneous_requests (svc : Service) (client session : Ref)
    (calls : List (String × Params × Value)) (sched : List Action) (w : World)
    (hc : w.clientAt client = some ⟨session⟩) (hs : w.isSession session = true)
    (hN : calls ≠ [])
    (hexpired : ∀ i, i < calls.length → (svc.answer i 0).isAuthFailure = true)
    (hsim : simultaneous calls.length sched = true) :
    ∃ chans w', requestAll client calls w = some (chans, w') ∧
      (w'.startedSince w).length = calls.length ∧
      (∀ t ∈ w'.startedSince w, t.isRequest = true ∧ t.session = session) ∧
      refreshCalls
          ((System.start w' session (w'.startedSince w)).exec svc sched).world.log =
        refreshCalls w.log + 1 ∧
      (∀ o rest, sched.dropWhile Action.isRun = Action.refreshDone o :: rest →
        ∃ d, deliveries
            ((System.start w' session (w'.startedSince w)).exec svc sched).world.log =
            deliveries w.log ++ d ∧
          d.Perm ((List.range calls.length).map (fun i => (i, o)))) ∧
      (sched.dropWhile Action.isRun = [] →
        deliveries
            ((System.start w' session (w'.startedSince w)).exec svc sched).world.log =
          deliveries w.log) := by
  obtain ⟨chans, w', ts, hall, htasks, hlen, _, hts, hlog, _⟩ :=
    requestAll_eq client ⟨session⟩ calls w hc hs
  have hstarted : w'.startedSince w = ts := by
    simp [World.startedSince, htasks]
  have hpos : 0 < calls.length := List.length_pos.mpr hN
  refine ⟨chans, w', hall, by rw [hstarted, hlen], by rw [hstarted]; exact hts, ?_⟩
  rw [hstarted]
  have hexec : (System.start w' session ts).exec svc sched =
      ((System.start w' session ts).exec svc (sched.takeWhile Action.isRun)).exec svc
        (sched.dropWhile Action.isRun) := by
    rw [← System.exec_append, List.takeWhile_append_dropWhile]
  have hdet0 : (System.start w' session ts).Detecting (refreshCalls w.log)
      (deliveries w.log) := by
    refine ⟨fun i => Or.inl rfl, fun i hi => ?_, ?_, fun i => ?_, ?_, ?_⟩
    · simp [System.start] at hi
    · simp [System.start, ManagerState.waiting]
    · simp [System.start, ManagerState.waiting]
    · simp [System.start, hlog]
    · simp [System.start, hlog]
  obtain ⟨hdet1, _, hran⟩ := System.exec_detecting svc (sched.takeWhile Action.isRun)
    (System.start w' session ts) (refreshCalls w.log) (deliveries w.log)
    (fun a ha => (List.mem_takeWhile_imp ha))
    (fun j hj => hexpired j (by simpa [System.start, hlen] using hj))
    (fun t ht => (hts t ht).1) hdet0
  have hrq1 : ((System.start w' session ts).exec svc
      (sched.takeWhile Action.isRun)).requests.length = calls.length := by
    rw [System.exec_requests]
    simpa [System.start] using hlen
  have hwaiting : ∀ i, i < ((System.start w' session ts).exec svc
      (sched.takeWhile Action.isRun)).requests.length →
      ((System.start w' session ts).exec svc (sched.takeWhile Action.isRun)).stage i =
        Stage.waiting := by
    intro i hi
    rw [hrq1] at hi
    have hmem : Action.run i ∈ sched.takeWhile Action.isRun := by
      have := hsim
      simp only [simultaneous, List.all_eq_true, List.mem_range, decide_eq_true_eq] at this
      exact this i hi
    exact hran i hmem (by simpa [System.start, hlen] using hi)
  rw [hexec]
  cases hpost : sched.dropWhile Action.isRun with
  | nil =>
    obtain ⟨_, _, _, h4, h5, h6⟩ := hdet1
    have hbusy : ((System.start w' session ts).exec svc
        (sched.takeWhile Action.isRun)).manager ≠ ManagerState.idle := by
      intro hidle
      have h0 := (h4 0).mpr (hwaiting 0 (by rw [hrq1]; exact hpos))
      rw [hidle] at h0
      simp [ManagerState.waiting] at h0
    refine ⟨?_, ?_, fun _ => ?_⟩
    · show refreshCalls ((System.start w' session ts).exec svc
        (sched.takeWhile Action.isRun)).world.log = _
      rw [h5, if_neg hbusy]
    · intro o rest h
      cases h
    · exact h6
  | cons a rest =>
    have hnot := dropWhile_head_not Action.isRun sched a rest hpost
    cases a with
    | run i => simp [Action.isRun] at hnot
    | refreshDone o =>
      rw [System.exec_cons]
      obtain ⟨hsettled, hcalls, q, hperm, hdel⟩ := System.refreshDone_settles
        ((System.start w' session ts).exec svc (sched.takeWhile Action.isRun)) o
        (refreshCalls w.log) (deliveries w.log) hdet1 (by rw [hrq1]; exact hpos) hwaiting
      obtain ⟨hc2, hd2⟩ := System.exec_settled svc rest _ hsettled
      refine ⟨?_, ?_, fun h => ?_⟩
      · exact hc2.trans hcalls
      · intro o' rest' h
        cases h
        refine ⟨q.map (fun r => (r, o)), hd2.trans hdel, ?_⟩
        rw [hrq1] at hperm
        exact hperm.map _
      · cases h

theorem one_refresh_for_simultaneous_requests_witness :
    ∃ chans w', requestAll (Ref.addr 1) sampleCalls World.sample = some (chans, w') ∧
      refreshCalls
          ((System.start w' (Ref.addr 0) (w'.startedSince World.sample)).exec Service.expired
            sampleSchedule).world.log = refreshCalls World.sample.log + 1 ∧
      ∃ d, deliveries
          ((System.start w' (Ref.addr 0) (w'.startedSince World.sample)).exec Service.expired
            sampleSchedule).world.log = deliveries World.sample.log ++ d ∧
        d.Perm ((List.range sampleCalls.length).map
          (fun i => (i, Outcome.tokens ⟨"t2", "r2", "d1"⟩))) :=
  match one_refresh_for_simultaneous_requests Service.expired (Ref.addr 1) (Ref.addr 0)
    sampleCalls sampleSchedule World.sample rfl rfl (List.cons_ne_nil _ _) (fun _ _ => rfl)
    (by decide) with
  | ⟨chans, w', h1, _, _, h4, h5, _⟩ =>
    ⟨chans, w', h1, h4, h5 (Outcome.tokens ⟨"t2", "r2", "d1"⟩) _ rfl⟩

/-- The window matters: when one of three requests meets the expired token only
after the refresh has returned, the token manager makes a second network refresh
call. -/
theorem late_request_second_refresh :
    ∃ chans w', requestAll (Ref.addr 1) sampleCalls World.sample = some (chans, w') ∧
      simultaneous sampleCalls.length lateSchedule = false ∧
      refreshCalls
          ((System.start w' (Ref.addr 0) (w'.startedSince World.sample)).exec Service.expired
            lateSchedule).world.log = 2 :=
  ⟨_, _, rfl, by decide, rfl⟩

/-- The concurrent model and the goroutine body agree: one request alone, on a
channel the caller receives from, run to its end around a refresh with outcome
`o`, does (the token manager's own actions apart) exactly what
`geotriggerAPIRequest` does in an environment with the same answers and that
refresh outcome. -/
theorem System.single_request_trace (svc : Service) (env : Env) (w : World) (session : Ref)
    (route : String) (params : Params) (responseJSON : Value) (errorChan : Ref) (k : Chan)
    (o : Outcome) (hk : w.chanAt errorChan = some k) (hrecv : svc.receiving errorChan = true)
    (hapi : ∀ n, env.api n = svc.answer 0 n) (href : env.refresh = some o) :
    (((System.start w session
        [Task.geotriggerAPIRequest session route params responseJSON errorChan]).exec svc
        [Action.run 0, Action.refreshDone o, Action.run 0, Action.run 0]).world.log.filter
        (fun e => !e.isManager)) =
      w.log.filter (fun e => !e.isManager) ++
        geotriggerAPIRequest env (w.accessTokenOf session) session route params responseJSON
          errorChan := by
  have hready : k.sendReady true = true := by simp [Chan.sendReady]
  cases errorChan with
  | nil => simp [World.chanAt] at hk
  | addr a =>
    simp only [World.chanAt] at hk
    simp only [System.exec, List.foldl_cons, List.foldl_nil, System.step]
    unfold geotriggerAPIRequest
    rw [hapi 0, hapi 1, href]
    cases h0 : svc.answer 0 0 with
    | ok p =>
      simp [System.run, System.start, System.refreshDone, h0, tokenManagerStep, World.logged,
        World.storeAll, World.chanAt, hk, hrecv, hready, decoding, Response.verdict,
        finishAttempt, Event.isManager]
    | transportError msg =>
      simp [System.run, System.start, System.refreshDone, h0, tokenManagerStep, World.logged,
        World.storeAll, World.chanAt, hk, hrecv, hready, decoding, Response.verdict,
        finishAttempt, Event.isManager]
    | malformed msg =>
      simp [System.run, System.start, System.refreshDone, h0, tokenManagerStep, World.logged,
        World.storeAll, World.chanAt, hk, hrecv, hready, decoding, Response.verdict,
        finishAttempt, Event.isManager]
    | authFailure msg =>
      cases o with
      | failed m2 =>
        simp [System.run, System.start, System.refreshDone, h0, tokenManagerStep, World.logged,
          World.storeAll, World.chanAt, hk, hrecv, hready, decoding, Response.verdict,
          finishAttempt, Event.isManager, Stage.resumed]
      | tokens ts =>
        have hch : ∀ (v : World), v.chans = w.chans → v.chans[a]? = some k := by
          intro v hv
          rw [hv]
          exact hk
        cases h1 : svc.answer 0 1 <;>
        simp [System.run, System.start, System.refreshDone, h0, h1, tokenManagerStep,
          World.logged, World.storeAll, World.chanAt, hk, hrecv, hready, decoding,
          Response.verdict, finishAttempt, Event.isManager, Stage.resumed,
          World.storeTokens_chans, World.storeTokens_log, hch]

end Geotrigger
